import Mathlib

/-!
# Flight tracker: search aggregation, report rendering and airport resolution

Shallow embedding of `src/main/flight.go`, `src/main/bot.go` and
`src/main/config.go`, and of `formatMessage` of the standalone tracker
`src/main.go` (namespace `Standalone`).

Conventions of the embedding

* Go `string` values are Lean `String`s (valid UTF-8 text); Go `int` values are
  `Int` (the program performs no arithmetic on them that could overflow, only
  comparisons, `/ 60` and `% 60`).
* A Go slice is a `List`; a slice result that may be `nil` is an
  `Option (List _)` with `none` for `nil`.
* A Go `map` is an association list with distinct keys; the order in which
  `range` visits it is not fixed by the language, so every function that
  ranges over a map takes the visiting order as an argument.
* Standard-library behaviour that the program calls but does not define
  (`time.Parse`, `sort.Slice`, the upstream HTTP exchange) is an argument of
  the embedded function, see `Runtime` and `Fetch`.
* `strings.ToLower` and `strings.ToUpper` are written out for the Latin and
  Cyrillic blocks. The general theorems on the resolvers speak about the
  normalised text `normalizeCity s` and never unfold how a rune is lower-cased;
  only the worked examples evaluate it.
-/

namespace FlightTracker

/-! ## Go standard library: `strings` -/

/-- Go `unicode.IsSpace`: the Latin-1 spaces `\t \n \v \f \r`, space, U+0085,
U+00A0, and the runes with the Unicode White_Space property. -/
def unicodeIsSpace (c : Char) : Bool :=
  let n := c.toNat
  (9 ≤ n && n ≤ 13) || n == 32 || n == 0x85 || n == 0xA0 || n == 0x1680 ||
  (0x2000 ≤ n && n ≤ 0x200A) || n == 0x2028 || n == 0x2029 || n == 0x202F ||
  n == 0x205F || n == 0x3000

/-- Go `unicode.ToLower` on the Basic Latin, Latin-1 and Cyrillic (U+0400 to
U+042F) blocks, the scripts of the directory keys and of the bot commands;
every other rune is returned unchanged. -/
def unicodeToLower (c : Char) : Char :=
  let n := c.toNat
  if 0x41 ≤ n ∧ n ≤ 0x5A then Char.ofNat (n + 32)
  else if 0xC0 ≤ n ∧ n ≤ 0xDE ∧ n ≠ 0xD7 then Char.ofNat (n + 32)
  else if 0x400 ≤ n ∧ n ≤ 0x40F then Char.ofNat (n + 80)
  else if 0x410 ≤ n ∧ n ≤ 0x42F then Char.ofNat (n + 32)
  else c

/-- Go `strings.ToLower`. -/
def stringsToLower (s : String) : String :=
  String.mk (s.data.map unicodeToLower)

/-- Go `strings.TrimSpace`: leading and trailing white space removed. -/
def stringsTrimSpace (s : String) : String :=
  String.mk (((s.data.dropWhile unicodeIsSpace).reverse.dropWhile unicodeIsSpace).reverse)

/-- Whether `sub` occurs in `s` as a contiguous run, on rune lists. Go searches
bytes; on valid UTF-8 a byte occurrence of `sub` starts and ends on rune
boundaries, so both searches find the same occurrences. -/
def containsRunes : List Char → List Char → Bool
  | [], sub => sub.isEmpty
  | c :: s, sub => sub.isPrefixOf (c :: s) || containsRunes s sub

/-- Go `strings.Contains(s, substr)`. -/
def stringsContains (s substr : String) : Bool :=
  containsRunes s.data substr.data

/-! ## The airport directory (`src/main/flight.go`) -/

/-- The `CityAirports` table, entries in the order of the source literal. -/
def CityAirports : List (String × List String) :=
  [ ("бали", ["DPS"]),
    ("денпасар", ["DPS"]),
    ("бангкок", ["BKK"]),
    ("пхукет", ["HKT"]),
    ("сингапур", ["SIN"]),
    ("куалалумпур", ["KUL"]),
    ("куала-лумпур", ["KUL"]),
    ("ханой", ["HAN"]),
    ("хошимин", ["SGN"]),
    ("дананг", ["DAD"]),
    ("той", ["NRT", "HND"]),
    ("сеул", ["ICN", "GMP"]),
    ("пекин", ["PEK"]),
    ("шахай", ["PVG"]),
    ("шанхай", ["PVG"]),
    ("дел", ["DEL"]),
    ("дуба", ["DXB"]),
    ("дубай", ["DXB"]),
    ("стамбул", ["IST"]),
    ("франкфурт", ["FRA"]),
    ("париж", ["CDG", "ORY"]),
    ("лондон", ["LHR", "LGW", "STN"]),
    ("берлин", ["BER", "SXF", "TXL"]),
    ("амстердам", ["AMS"]),
    ("праж", ["PRG"]),
    ("прага", ["PRG"]),
    ("рим", ["FCO"]),
    ("милан", ["MXP", "LIN"]),
    ("мадрид", ["MAD"]),
    ("барселон", ["BCN"]),
    ("барселона", ["BCN"]),
    ("вена", ["VIE"]),
    ("варшав", ["WAW"]),
    ("варшава", ["WAW"]),
    ("ньюйорк", ["JFK", "LGA", "EWR"]),
    ("нью-йорк", ["JFK", "LGA", "EWR"]),
    ("лосанделес", ["LAX"]),
    ("лос-анделес", ["LAX"]),
    ("маям", ["MIA"]),
    ("майами", ["MIA"]),
    ("чикаг", ["ORD", "MDW"]),
    ("чикаго", ["ORD", "MDW"]),
    ("торонт", ["YYZ"]),
    ("торонто", ["YYZ"]),
    ("вancouver", ["YVR"]),
    ("ванкувер", ["YVR"]),
    ("москв", ["SVO", "DME", "VKO"]),
    ("москва", ["SVO", "DME", "VKO"]),
    ("санктпетербург", ["LED"]),
    ("петербург", ["LED"]),
    ("екатеринбург", ["SVX"]),
    ("красноярск", ["KJA"]),
    ("иркутск", ["IKT"]),
    ("владивосток", ["VVO"]),
    ("хабаровск", ["KHV"]),
    ("алмат", ["ALA"]),
    ("алматы", ["ALA"]),
    ("ташкент", ["TAS"]),
    ("бишкек", ["FRU"]) ]

/-- Go map indexing `m[k]` with the comma-ok form, on an association list. -/
def mapLookup {β : Type} : List (String × β) → String → Option β
  | [], _ => none
  | (k, v) :: m, key => if k = key then some v else mapLookup m key

/-- The `cityNames` table local to `getCityName` in `src/main/flight.go`. -/
def cityNames : List (String × String) :=
  [ ("DPS", "Денпасар (Бали)"),
    ("BKK", "Бангкок"),
    ("HKT", "Пхукет"),
    ("SYD", "Сидней"),
    ("AKL", "Окленд"),
    ("SIN", "Сингапур"),
    ("KUL", "Куала-Лумпур"),
    ("HAN", "Ханой"),
    ("SGN", "Хошимин"),
    ("NRT", "Токио (Наррита)"),
    ("HND", "Токио (Ханеда)"),
    ("ICN", "Сеул"),
    ("GMP", "Сеул (Кимхо)"),
    ("PEK", "Пекин"),
    ("PVG", "Шанхай"),
    ("DEL", "Дели"),
    ("DXB", "Дубай"),
    ("IST", "Стамбул"),
    ("FRA", "Франкфурт"),
    ("CDG", "Париж (Шарль-де-Голль)"),
    ("ORY", "Париж (Орли)"),
    ("LHR", "Лондон (Хитроу)"),
    ("LGW", "Лондон (Гатвик)"),
    ("STN", "Лондон (Станстед)"),
    ("BER", "Берлин"),
    ("AMS", "Амстердам"),
    ("PRG", "Прага"),
    ("FCO", "Рим"),
    ("MXP", "Милан"),
    ("MAD", "Мадрид"),
    ("BCN", "Барселона"),
    ("VIE", "Вена"),
    ("WAW", "Варшава"),
    ("JFK", "Нью-Йорк (Кеннеди)"),
    ("LGA", "Нью-Йорк (ЛаГуардиа)"),
    ("EWR", "Нью-Йорк (Ньюарк)"),
    ("LAX", "Лос-Анджелес"),
    ("MIA", "Майами"),
    ("ORD", "Чикаго"),
    ("YYZ", "Торонто"),
    ("YVR", "Ванкувер"),
    ("SVO", "Москва (Шереметьево)"),
    ("DME", "Москва (Домодедово)"),
    ("VKO", "Москва (Внуково)"),
    ("LED", "Санкт-Петербург"),
    ("SVX", "Екатеринбург"),
    ("KJA", "Красноярск"),
    ("IKT", "Иркутск"),
    ("VVO", "Владивосток"),
    ("KHV", "Хабаровск"),
    ("ALA", "Алматы"),
    ("TAS", "Ташкент"),
    ("FRU", "Бишкек"),
    ("OVB", "Новосибирск"),
    ("BAX", "Барнаул") ]

/-- The function `getCityName`: the display name of a code, or the code itself. -/
def getCityName (iata : String) : String :=
  match mapLookup cityNames iata with
  | some name => name
  | none => iata

/-- The expression `codes[0]` on a code list of the directory (every list of
`CityAirports` is non-empty, see `CityAirports_codes_ne_nil`). -/
def firstCode (codes : List String) : String :=
  codes.headD ""

/-- The normalisation both resolvers start with:
`strings.ToLower(strings.TrimSpace(cityName))`. -/
def normalizeCity (cityName : String) : String :=
  stringsToLower (stringsTrimSpace cityName)

/-- The loop `for city, codes := range CityAirports` of `FindAirportCode`, over
the entries in the order `range` visits them: the first entry whose key is
contained in `normalized` or contains it ends the loop. -/
def partialMatch (normalized : String) :
    List (String × List String) → Option (String × List String)
  | [] => none
  | (city, codes) :: rest =>
    if stringsContains normalized city || stringsContains city normalized then
      some (city, codes)
    else partialMatch normalized rest

/-- The function `FindAirportCode` of `src/main/flight.go`. `order` is the
order in which `range CityAirports` visits the table on this call. The result
is the pair `(codes, name)`, `(none, "")` being Go's `nil, ""`. -/
def FindAirportCode (order : List (String × List String)) (cityName : String) :
    Option (List String) × String :=
  let normalized := normalizeCity cityName
  match mapLookup CityAirports normalized with
  | some codes => (some codes, getCityName (firstCode codes))
  | none =>
    match partialMatch normalized order with
    | some (_, codes) => (some codes, getCityName (firstCode codes))
    | none => (none, "")

/-- The function `FindOriginAirportCode` of `src/main/bot.go`. -/
def FindOriginAirportCode (cityName : String) : Option (List String) × String :=
  let normalized := normalizeCity cityName
  match mapLookup CityAirports normalized with
  | some codes => (some codes, getCityName (firstCode codes))
  | none => (none, "")

/-! ## Times (`time.Time` as far as the program reads it) -/

/-- Go `time.Weekday`. -/
inductive Weekday where
  | Sunday | Monday | Tuesday | Wednesday | Thursday | Friday | Saturday
  deriving DecidableEq, Repr

/-- The components of a `time.Time` that the program formats. -/
structure Time where
  year : Nat
  month : Nat
  day : Nat
  hour : Nat
  minute : Nat
  weekday : Weekday
  deriving DecidableEq, Repr

/-- A decimal number left-padded with zeros to `width` digits. -/
def zeroPad (width n : Nat) : String :=
  String.mk (List.leftpad width '0' (toString n).data)

/-- The call `t.Format("02.01.2006")`. -/
def formatDate (t : Time) : String :=
  zeroPad 2 t.day ++ "." ++ zeroPad 2 t.month ++ "." ++ zeroPad 4 t.year

/-- The call `t.Format("15:04")`. -/
def formatClock (t : Time) : String :=
  zeroPad 2 t.hour ++ ":" ++ zeroPad 2 t.minute

/-- The function `getRussianDayOfWeek`. -/
def getRussianDayOfWeek : Weekday → String
  | .Monday => "Пн"
  | .Tuesday => "Вт"
  | .Wednesday => "Ср"
  | .Thursday => "Чт"
  | .Friday => "Пт"
  | .Saturday => "Сб"
  | .Sunday => "Вс"

/-! ## Data model (`src/main/flight.go`, `src/main/config.go`) -/

/-- The struct `Flight`. -/
structure Flight where
  Origin : String
  Destination : String
  DepartureDate : String
  DayOfWeek : String
  DepartureTime : String
  Price : Int
  Airline : String
  Link : String
  Duration : Int
  Transfers : Int
  deriving DecidableEq, Repr

/-- One element of `APIResponse.Data`. -/
structure FlightData where
  Origin : String
  Destination : String
  DepartureAt : String
  Price : Int
  Airline : String
  Link : String
  Duration : Int
  Transfers : Int
  deriving DecidableEq, Repr

/-- The struct `APIResponse`. -/
structure APIResponse where
  Data : List FlightData
  Error : String
  Success : Bool
  deriving DecidableEq, Repr

/-- The struct `DateFilter` of `src/main/config.go`; the two `time.Time` fields
are kept as the strings they were read from. -/
structure DateFilter where
  StartDate : String
  EndDate : String
  Dates : List String
  Enabled : Bool
  Mode : String
  deriving DecidableEq, Repr

/-- The struct `AppConfig` of `src/main/config.go`. -/
structure AppConfig where
  TelegramBotUrl : String
  TelegramBotToken : String
  TelegramChatID : String
  AdminUsers : List Int
  TravelPayoutsToken : String
  TravelPayoutsUrlPrice : String
  OriginIATA : List String
  DestinationIATA : String
  MaxPrice : Int
  MonthsToSearch : Int
  MaxFlightTime : Int
  DateFilter : DateFilter
  deriving DecidableEq, Repr

/-! ## What the program leaves to the Go runtime and to the network -/

/-- Library behaviour the program calls without fixing its result. -/
structure Runtime where
  /-- The call `time.Parse(time.RFC3339, s)`; `none` is a non-nil error. -/
  parseRFC3339 : String → Option Time
  /-- The call `sort.Slice(xs, func(i, j) bool { return key(xs[i]) < key(xs[j]) })`:
  the slice contents after the call. -/
  sortSlice : (Flight → Int) → List Flight → List Flight
  /-- The order in which `range` visits a map whose keys, in order of first
  insertion, are the argument. -/
  rangeOrder : List String → List String

/-- What Go documents about `sort.Slice` and `range` over a map: the sorted
slice is a rearrangement of the input in which no element is less than an
earlier one, and `range` visits every key exactly once. -/
structure Runtime.Lawful (rt : Runtime) : Prop where
  sort_perm : ∀ key xs, (rt.sortSlice key xs).Perm xs
  sort_sorted : ∀ key xs, (rt.sortSlice key xs).Pairwise (fun a b => key a ≤ key b)
  range_perm : ∀ keys, (rt.rangeOrder keys).Perm keys

/-- How one iteration of the month loop ends before the records are read. -/
inductive FetchResult where
  /-- The call `http.NewRequest` returned an error. -/
  | requestError
  /-- The call `client.Do` returned an error. -/
  | networkError
  /-- A response arrived: its status code, and the decoded body (`none` when
  `json.NewDecoder(resp.Body).Decode` returned an error). -/
  | response (statusCode : Nat) (body : Option APIResponse)
  deriving DecidableEq, Repr

/-- The upstream API as seen by the program: the outcome of the fetch made in
loop iteration number `attempt` (counted from 0 over one `Search`) for
`origin` and `monthOffset`. -/
abbrev Fetch := (attempt : Nat) → (origin : String) → (monthOffset : Nat) → FetchResult

/-- Effects of the search loop that leave the process. -/
inductive Event where
  /-- The call `client.Do(req)` for an origin and month offset. -/
  | request (origin : String) (monthOffset : Nat)
  /-- The call `time.Sleep(1 * time.Second)`. -/
  | sleep
  deriving DecidableEq, Repr

/-- The state threaded through the search: how many loop iterations have run
and the effects so far, oldest first. -/
structure World where
  attempts : Nat
  events : List Event
  deriving DecidableEq, Repr

/-! ## Search (`src/main/flight.go`) -/

/-- The struct literal `flight := Flight{...}` of `searchFlightsForOrigin`. -/
def toFlight (origin : String) (flightData : FlightData) (departureTime : Time) : Flight where
  Origin := origin
  Destination := flightData.Destination
  DepartureDate := formatDate departureTime
  DayOfWeek := getRussianDayOfWeek departureTime.weekday
  DepartureTime := formatClock departureTime
  Price := flightData.Price
  Airline := flightData.Airline
  Link := "https://aviasales.ru" ++ flightData.Link
  Duration := flightData.Duration
  Transfers := flightData.Transfers

/-- The loop `for _, flightData := range apiResponse.Data` of
`searchFlightsForOrigin`, appending to `flights`. -/
def appendAccepted (cfg : AppConfig) (rt : Runtime) (origin : String) :
    List Flight → List FlightData → List Flight
  | flights, [] => flights
  | flights, flightData :: rest =>
    if flightData.Price > cfg.MaxPrice then appendAccepted cfg rt origin flights rest
    else if flightData.Duration > cfg.MaxFlightTime then appendAccepted cfg rt origin flights rest
    else
      match rt.parseRFC3339 flightData.DepartureAt with
      | none => appendAccepted cfg rt origin flights rest
      | some departureTime =>
        appendAccepted cfg rt origin (flights ++ [toFlight origin flightData departureTime]) rest

/-- One iteration of `for monthOffset := 0; monthOffset < MonthsToSearch; monthOffset++`
in `searchFlightsForOrigin`. Every `continue` of the source leaves `flights`
as it is and skips the `time.Sleep` at the end of the body. -/
def monthIteration (cfg : AppConfig) (rt : Runtime) (fetch : Fetch) (origin : String)
    (st : List Flight × World) (monthOffset : Nat) : List Flight × World :=
  let flights := st.1
  let w := st.2
  match fetch w.attempts origin monthOffset with
  | .requestError => (flights, { attempts := w.attempts + 1, events := w.events })
  | .networkError =>
    (flights, { attempts := w.attempts + 1
                events := w.events ++ [Event.request origin monthOffset] })
  | .response statusCode body =>
    let w1 : World := { attempts := w.attempts + 1
                        events := w.events ++ [Event.request origin monthOffset] }
    if statusCode ≠ 200 then (flights, w1)
    else
      match body with
      | none => (flights, w1)
      | some apiResponse =>
        if !apiResponse.Success then (flights, w1)
        else
          (appendAccepted cfg rt origin flights apiResponse.Data,
           { w1 with events := w1.events ++ [Event.sleep] })

/-- The function `FlightSearch.searchFlightsForOrigin`: the month loop run for
offsets `0, 1, ...` below `MonthsToSearch`, starting from `var flights []Flight`. -/
def searchFlightsForOrigin (cfg : AppConfig) (rt : Runtime) (fetch : Fetch)
    (origin : String) (w : World) : List Flight × World :=
  (List.range cfg.MonthsToSearch.toNat).foldl (monthIteration cfg rt fetch origin) ([], w)

/-- The loop `for _, origin := range fs.config.OriginIATA` of `Search`:
`allFlights` after the loop, and the world. -/
def collectFlights (cfg : AppConfig) (rt : Runtime) (fetch : Fetch) (w : World) :
    List Flight × World :=
  cfg.OriginIATA.foldl
    (fun (st : List Flight × World) origin =>
      let r := searchFlightsForOrigin cfg rt fetch origin st.2
      (st.1 ++ r.1, r.2))
    ([], w)

/-! ## Report (`src/main/flight.go`) -/

/-- The verb `%Nd` / `%Ns` of `fmt.Sprintf`: `s` right-justified in a field of `width` runes. -/
def padLeft (width : Nat) (s : String) : String :=
  String.mk (List.leftpad width ' ' s.data)

/-- The function `formatDuration`; Go's `/` and `%` truncate toward zero. -/
def formatDuration (minutes : Int) : String :=
  let hours := minutes.tdiv 60
  let mins := minutes.tmod 60
  if hours > 0 ∧ mins > 0 then toString hours ++ "ч " ++ toString mins ++ "м"
  else if hours > 0 then toString hours ++ "ч"
  else toString mins ++ "м"

/-- The function `getTransfersText`. -/
def getTransfersText (transfers : Int) : String :=
  if transfers = 0 then "прямой"
  else if transfers = 1 then "1 перес"
  else toString transfers ++ " перес"

/-- The function `min` of `src/main/flight.go`. -/
def min (a b : Int) : Int :=
  if a < b then a else b

/-- The statement `flightsByOrigin[flight.Origin] = append(flightsByOrigin[flight.Origin], flight)`
on a map kept as an association list in order of first insertion. -/
def appendToGroup (flight : Flight) : List (String × List Flight) → List (String × List Flight)
  | [] => [(flight.Origin, [flight])]
  | (origin, group) :: m =>
    if origin = flight.Origin then (origin, group ++ [flight]) :: m
    else (origin, group) :: appendToGroup flight m

/-- The map `flightsByOrigin` after the first loop of `formatMessage`. -/
def flightsByOrigin (flights : List Flight) : List (String × List Flight) :=
  flights.foldl (fun m flight => appendToGroup flight m) []

/-- The flights whose rows are written for one origin: the group after
`sort.Slice` by `Price`, cut to `originFlights[:min(10, len(originFlights))]`. -/
def renderedFlights (rt : Runtime) (originFlights : List Flight) : List Flight :=
  let sorted := rt.sortSlice (fun f => f.Price) originFlights
  sorted.take (min 10 sorted.length).toNat

/-- The two `WriteString` calls in the body of the row loop: one data row. -/
def formatRow (flight : Flight) : String :=
  let transfersStr := getTransfersText flight.Transfers
  "<code>" ++ flight.DepartureDate ++ " " ++ flight.DayOfWeek ++ " | " ++
    padLeft 6 (toString flight.Price) ++ "₽ | " ++ formatDuration flight.Duration ++ " | " ++
    padLeft 7 transfersStr ++ " | " ++ flight.Airline ++ "</code> " ++
    "<a href=\x27" ++ flight.Link ++ "\x27>🎫</a>\n"

/-- The header written for one origin, up to the closing `</code>`. -/
def formatGroupHeader (cfg : AppConfig) (origin : String) : String :=
  let cityName := getCityName origin
  let destName := getCityName cfg.DestinationIATA
  "🛫 <b>" ++ cityName ++ " → " ++ destName ++ "</b>\n" ++
    "<code>" ++
    "Дата          | Цена    | Время   | Пересад | Рейс\n" ++
    "--------------|---------|---------|---------|------\n" ++
    "</code>"

/-- The body of `for origin, originFlights := range flightsByOrigin`: what one
group adds to the builder. -/
def formatGroup (cfg : AppConfig) (rt : Runtime) (origin : String)
    (originFlights : List Flight) : String :=
  (renderedFlights rt originFlights).foldl (fun sb flight => sb ++ formatRow flight)
    (formatGroupHeader cfg origin) ++ "\n"

/-- The origins of the report in the order their groups are written. -/
def groupOrder (rt : Runtime) (flights : List Flight) : List String :=
  rt.rangeOrder ((flightsByOrigin flights).map Prod.fst)

/-- The function `FlightSearch.formatMessage`. -/
def formatMessage (cfg : AppConfig) (rt : Runtime) (flights : List Flight) : String :=
  let byOrigin := flightsByOrigin flights
  let sb := "✈️ <b>НАЙДЕНЫ ДЕШЁВЫЕ БИЛЕТЫ!</b>\n\n"
  let sb := (groupOrder rt flights).foldl
    (fun sb origin => sb ++ formatGroup cfg rt origin ((mapLookup byOrigin origin).getD []))
    sb
  sb ++ "📊 <b>Информация:</b>\n" ++ "   • 🎫 - ссылка на покупку\n"

/-- The message `Search` returns when nothing was collected. -/
def noFlightsMessage : String := "ℹ️ Дешёвых билетов не найдено."

/-- The function `FlightSearch.Search`: the returned `(string, error)` pair,
`none` being a nil error, and the world after the call. -/
def Search (cfg : AppConfig) (rt : Runtime) (fetch : Fetch) (w : World) :
    (String × Option String) × World :=
  let r := collectFlights cfg rt fetch w
  let allFlights := r.1
  if allFlights.length > 0 then ((formatMessage cfg rt allFlights, none), r.2)
  else ((noFlightsMessage, none), r.2)

/-! ## Configuration commands (`src/main/flight.go`, `src/main/bot.go`) -/

/-- Go `unicode.ToUpper` on the Basic Latin, Latin-1 and Cyrillic (U+0430 to
U+045F) blocks; every other rune is returned unchanged. -/
def unicodeToUpper (c : Char) : Char :=
  let n := c.toNat
  if 0x61 ≤ n ∧ n ≤ 0x7A then Char.ofNat (n - 32)
  else if n = 0xB5 then Char.ofNat 0x39C
  else if 0xE0 ≤ n ∧ n ≤ 0xFE ∧ n ≠ 0xF7 then Char.ofNat (n - 32)
  else if n = 0xFF then Char.ofNat 0x178
  else if 0x430 ≤ n ∧ n ≤ 0x44F then Char.ofNat (n - 32)
  else if 0x450 ≤ n ∧ n ≤ 0x45F then Char.ofNat (n - 80)
  else c

/-- Go `strings.ToUpper`. -/
def stringsToUpper (s : String) : String :=
  String.mk (s.data.map unicodeToUpper)

/-- Go `strings.Join`. -/
def stringsJoin (elems : List String) (sep : String) : String :=
  sep.intercalate elems

/-- The method `FlightSearch.SetDestination`, on the shared configuration. -/
def SetDestination (cfg : AppConfig) (destination : String) : AppConfig :=
  { cfg with DestinationIATA := stringsToUpper destination }

/-- The method `FlightSearch.SetMonthsToSearch`. -/
def SetMonthsToSearch (cfg : AppConfig) (monthsToSearch : Int) : AppConfig :=
  { cfg with MonthsToSearch := monthsToSearch }

/-- The method `FlightSearch.SetOriginIATA`: nothing changes when `origin` is
already configured, otherwise the origin list becomes `[origin]`. -/
def SetOriginIATA (cfg : AppConfig) (origin : String) : AppConfig :=
  if cfg.OriginIATA.any (fun existing => existing = origin) then cfg
  else { cfg with OriginIATA := [origin] }

/-- The bot as far as the commands touch it: the configuration it shares with
the search, and the messages passed to `api.Send` (chat and text), oldest first. -/
structure Bot where
  config : AppConfig
  sent : List (Int × String)
  deriving DecidableEq, Repr

/-- The method `Bot.setDestinationByCityName`: the returned flag and the bot
afterwards. `order` is the order `range CityAirports` takes inside
`FindAirportCode`. -/
def setDestinationByCityName (order : List (String × List String)) (b : Bot)
    (chatID : Int) (cityName : String) (monthsToSearch : Int) : Bool × Bot :=
  match FindAirportCode order cityName with
  | (none, _) =>
    let text := "❌ <b>Город \x27" ++ cityName ++ "\x27 не найден.</b>\n\n" ++
      "💡 <i>Используйте:</i>\n" ++
      "<code>/search бангкок</code> - поиск по названию\n" ++
      "<code>/search BKK</code> - поиск по коду аэропорта\n" ++
      "<code>/cities</code> - список доступных городов"
    (false, { b with sent := b.sent ++ [(chatID, text)] })
  | (some codes, foundCityName) =>
    let destination := firstCode codes
    let cfg1 := SetMonthsToSearch b.config monthsToSearch
    let oldDestination := cfg1.DestinationIATA
    let cfg2 := SetDestination cfg1 destination
    let airportInfo :=
      if codes.length > 1 then "\n🏢 Доступные аэропорты: " ++ stringsJoin codes ", " else ""
    let text := "✅ <b>Направление изменено:</b>\n" ++ stringsJoin cfg2.OriginIATA "/" ++ " → " ++
      getCityName oldDestination ++ "\n➡️\n" ++ stringsJoin cfg2.OriginIATA "/" ++ " → " ++
      foundCityName ++ airportInfo
    (true, { config := cfg2, sent := b.sent ++ [(chatID, text)] })

/-- The method `Bot.setOrigin`: the returned flag and the bot afterwards. -/
def setOrigin (b : Bot) (chatID : Int) (cityName : String) : Bool × Bot :=
  match FindOriginAirportCode cityName with
  | (none, _) =>
    let text := "❌ <b>Город вылета \x27" ++ cityName ++ "\x27 не найден.</b>\n\n" ++
      "💡 <i>Используйте:</i>\n" ++
      "<code>/origin list</code> - список доступных городов\n" ++
      "<code>/origin set москва</code> - установить Москву"
    (false, { b with sent := b.sent ++ [(chatID, text)] })
  | (some codes, _) =>
    let origin := firstCode codes
    let oldOrigins := b.config.OriginIATA
    let cfg1 := SetOriginIATA b.config origin
    let originInfo :=
      if codes.length > 1 then "\n🏢 Доступные аэропорты: " ++ stringsJoin codes ", " else ""
    let text := "✅ <b>Город вылета изменен:</b>\n" ++ stringsJoin oldOrigins "/" ++ " → " ++
      getCityName cfg1.DestinationIATA ++ "\n➡️\n" ++ origin ++ " → " ++
      getCityName cfg1.DestinationIATA ++ originInfo
    (true, { config := cfg1, sent := b.sent ++ [(chatID, text)] })

/-! ## A concrete runtime for the worked examples -/

/-- The value of a run of decimal digits, `none` when a rune is not a digit. -/
def digitsValue (cs : List Char) : Option Nat :=
  cs.foldl
    (fun acc c =>
      match acc with
      | none => none
      | some n => if c.isDigit then some (10 * n + (c.toNat - 48)) else none)
    (some 0)

/-- Days of a month of the Gregorian calendar. -/
def daysIn (year month : Nat) : Nat :=
  if month = 2 then
    if year % 4 = 0 ∧ (year % 100 ≠ 0 ∨ year % 400 = 0) then 29 else 28
  else if month = 4 ∨ month = 6 ∨ month = 9 ∨ month = 11 then 30
  else 31

/-- Day of the week of a Gregorian date. -/
def weekdayOf (year month day : Nat) : Weekday :=
  let y := if month < 3 then year - 1 else year
  let t := [0, 3, 2, 5, 0, 3, 5, 1, 4, 6, 2, 4].getD (month - 1) 0
  match (y + y / 4 - y / 100 + y / 400 + t + day) % 7 with
  | 0 => .Sunday
  | 1 => .Monday
  | 2 => .Tuesday
  | 3 => .Wednesday
  | 4 => .Thursday
  | 5 => .Friday
  | _ => .Saturday

/-- The zone suffix of an RFC 3339 timestamp: `Z` or `+hh:mm` / `-hh:mm`. -/
def validZone : List Char → Bool
  | ['Z'] => true
  | [sign, h1, h2, ':', m1, m2] =>
    (sign = '+' || sign = '-') &&
    (match digitsValue [h1, h2], digitsValue [m1, m2] with
     | some h, some m => h < 24 && m < 60
     | _, _ => false)
  | _ => false

/-- A reader of timestamps of the form `2006-01-02T15:04:05Z07:00` without
fractional seconds, standing in for `time.Parse(time.RFC3339, s)` in the
worked examples; the fields are those written in the text. -/
def parseTimestamp (s : String) : Option Time :=
  match s.data with
  | y1 :: y2 :: y3 :: y4 :: '-' :: mo1 :: mo2 :: '-' :: d1 :: d2 :: 'T' ::
      h1 :: h2 :: ':' :: mi1 :: mi2 :: ':' :: s1 :: s2 :: zone =>
    match digitsValue [y1, y2, y3, y4], digitsValue [mo1, mo2], digitsValue [d1, d2],
        digitsValue [h1, h2], digitsValue [mi1, mi2], digitsValue [s1, s2] with
    | some year, some month, some day, some hour, some minute, some second =>
      if 1 ≤ month ∧ month ≤ 12 ∧ 1 ≤ day ∧ day ≤ daysIn year month ∧
          hour < 24 ∧ minute < 60 ∧ second < 60 ∧ validZone zone = true then
        some { year := year, month := month, day := day, hour := hour, minute := minute
               weekday := weekdayOf year month day }
      else none
    | _, _, _, _, _, _ => none
  | _ => none

/-- A runtime for the worked examples: `parseTimestamp`, an insertion sort,
and maps visited in order of first insertion. -/
def exampleRuntime : Runtime where
  parseRFC3339 := parseTimestamp
  sortSlice := fun key xs => xs.insertionSort (fun a b => key a ≤ key b)
  rangeOrder := fun keys => keys

/-- The configuration of the worked example of the specification. -/
def exampleConfig : AppConfig where
  TelegramBotUrl := ""
  TelegramBotToken := ""
  TelegramChatID := ""
  AdminUsers := []
  TravelPayoutsToken := ""
  TravelPayoutsUrlPrice := ""
  OriginIATA := ["OVB", "BAX"]
  DestinationIATA := "DPS"
  MaxPrice := 35000
  MonthsToSearch := 2
  MaxFlightTime := 1440
  DateFilter := { StartDate := "", EndDate := "", Dates := [], Enabled := false, Mode := "range" }

/-- A response with status 200 and `success: true` carrying `data`. -/
def okResponse (data : List FlightData) : FetchResult :=
  .response 200 (some { Data := data, Error := "", Success := true })

/-- The upstream of the worked example: in the first month OVB has one fare at
28000 and BAX one at 40000; the second month has no fares. -/
def exampleFetch : Fetch := fun _ origin monthOffset =>
  if monthOffset ≠ 0 then okResponse []
  else if origin = "OVB" then
    okResponse [{ Origin := "OVB", Destination := "DPS", DepartureAt := "2024-03-10T08:00:00Z"
                  Price := 28000, Airline := "S7", Link := "/search/OVB1003DPS1"
                  Duration := 600, Transfers := 0 }]
  else
    okResponse [{ Origin := "BAX", Destination := "DPS", DepartureAt := "2024-03-12T09:30:00Z"
                  Price := 40000, Airline := "SU", Link := "/search/BAX1203DPS1"
                  Duration := 900, Transfers := 1 }]

/-- The fare the worked example keeps. -/
def exampleFlight : Flight where
  Origin := "OVB"
  Destination := "DPS"
  DepartureDate := "10.03.2024"
  DayOfWeek := "Вс"
  DepartureTime := "08:00"
  Price := 28000
  Airline := "S7"
  Link := "https://aviasales.ru/search/OVB1003DPS1"
  Duration := 600
  Transfers := 0

/-- An upstream on which every fetch for OVB fails with a network error and
every fetch for another origin returns one fare at 30000. -/
def outageFetch : Fetch := fun _ origin _ =>
  if origin = "OVB" then .networkError
  else
    okResponse [{ Origin := origin, Destination := "DPS", DepartureAt := "2024-03-12T09:30:00Z"
                  Price := 30000, Airline := "SU", Link := "/search/BAX1203DPS1"
                  Duration := 900, Transfers := 1 }]

/-- An upstream on which every fetch fails with a network error. -/
def downFetch : Fetch := fun _ _ _ => .networkError

/-- The worked example's configuration with a horizon of one month. -/
def singleMonthConfig : AppConfig :=
  { exampleConfig with MonthsToSearch := 1 }

/-- A response whose records sit at, above and below the ceilings 35000 and
1440: the first is at both ceilings, the second is above the price ceiling, the
third above the duration ceiling, the fourth has month 13 in its timestamp,
the fifth is within both ceilings. -/
def ceilingResponse : APIResponse where
  Data :=
    [ { Origin := "OVB", Destination := "DPS", DepartureAt := "2024-03-10T08:00:00Z"
        Price := 35000, Airline := "S7", Link := "/a", Duration := 1440, Transfers := 1 },
      { Origin := "OVB", Destination := "DPS", DepartureAt := "2024-03-11T08:00:00Z"
        Price := 35001, Airline := "S7", Link := "/b", Duration := 600, Transfers := 0 },
      { Origin := "OVB", Destination := "DPS", DepartureAt := "2024-03-12T08:00:00Z"
        Price := 100, Airline := "S7", Link := "/c", Duration := 1441, Transfers := 0 },
      { Origin := "OVB", Destination := "DPS", DepartureAt := "2024-13-01T08:00:00Z"
        Price := 100, Airline := "S7", Link := "/d", Duration := 10, Transfers := 0 },
      { Origin := "OVB", Destination := "DPS", DepartureAt := "2024-03-14T08:00:00+07:00"
        Price := 28000, Airline := "S7", Link := "/e", Duration := 600, Transfers := 0 } ]
  Error := ""
  Success := true

/-- An upstream that answers every fetch with `ceilingResponse`. -/
def ceilingFetch : Fetch := fun _ _ _ => .response 200 (some ceilingResponse)

/-- Twelve fares from OVB priced 12000, 11000, ..., 1000, in that order. -/
def twelveFares : List Flight :=
  (List.range 12).map (fun i =>
    { exampleFlight with Price := 12000 - 1000 * (i : Int), Link := "/" ++ toString i })

/-- A bot holding the example configuration that has sent nothing yet. -/
def exampleBot : Bot where
  config := exampleConfig
  sent := []

/-- An upstream that returns the same single record, within both ceilings of
the example configuration, for every origin and month. -/
def repeatFetch : Fetch := fun _ _ _ =>
  okResponse [{ Origin := "OVB", Destination := "DPS", DepartureAt := "2024-03-10T08:00:00Z"
                Price := 28000, Airline := "S7", Link := "/search/OVB1003DPS1"
                Duration := 600, Transfers := 0 }]

/-- The world before a search. -/
def World.start : World := { attempts := 0, events := [] }

/-! ## Definitions that follow the specification's wording -/

/-- A record passes the three checks of the specification: price not above the
ceiling, duration not above the ceiling, departure timestamp parses. -/
def qualifies (cfg : AppConfig) (rt : Runtime) (r : FlightData) : Bool :=
  decide (r.Price ≤ cfg.MaxPrice) && decide (r.Duration ≤ cfg.MaxFlightTime) &&
    (rt.parseRFC3339 r.DepartureAt).isSome

/-- The fares of one record list: each qualifying record, in upstream order,
turned into a `Flight`. -/
def acceptedFlights (cfg : AppConfig) (rt : Runtime) (origin : String)
    (data : List FlightData) : List Flight :=
  (data.filter (qualifies cfg rt)).filterMap
    (fun r => (rt.parseRFC3339 r.DepartureAt).map (toFlight origin r))

/-- The record list of a fetch that succeeded (status 200, body decoded,
`success` set), `none` for every failure. -/
def successfulData : FetchResult → Option (List FlightData)
  | .response statusCode (some apiResponse) =>
    if statusCode = 200 ∧ apiResponse.Success = true then some apiResponse.Data else none
  | _ => none

/-- What one fetch adds to the result: the accepted records of a successful
fetch, nothing for a failed one. -/
def fetchContribution (cfg : AppConfig) (rt : Runtime) (origin : String)
    (res : FetchResult) : List Flight :=
  match successfulData res with
  | some data => acceptedFlights cfg rt origin data
  | none => []

/-- The concatenation, over the origins in configured order and the month
offsets `0 .. MonthsToSearch - 1` in ascending order, of what each fetch adds;
the fetch for the origin at position `i` and offset `j` is attempt number
`start + i * MonthsToSearch + j`. -/
def expectedFlights (cfg : AppConfig) (rt : Runtime) (fetch : Fetch) (start : Nat) :
    List Flight :=
  cfg.OriginIATA.enum.flatMap (fun p =>
    (List.range cfg.MonthsToSearch.toNat).flatMap (fun j =>
      fetchContribution cfg rt p.2 (fetch (start + p.1 * cfg.MonthsToSearch.toNat + j) p.2 j)))

/-- The fares of `flights` that share the origin `origin`, in list order. -/
def faresOf (origin : String) (flights : List Flight) : List Flight :=
  flights.filter (fun f => decide (f.Origin = origin))

/-- Every flight that has a data row in the report, in the order of the rows. -/
def reportRows (rt : Runtime) (flights : List Flight) : List Flight :=
  (groupOrder rt flights).flatMap (fun origin =>
    renderedFlights rt ((mapLookup (flightsByOrigin flights) origin).getD []))

/-! ## Command handlers (`src/main/bot.go`) and what they call from the library -/

/-- The loop of Go `strings.Fields` on runes: `cur` is the field being read,
kept in reverse. -/
def fieldsLoop : List Char → List Char → List String
  | [], cur => if cur.isEmpty then [] else [String.mk cur.reverse]
  | c :: rest, cur =>
    if unicodeIsSpace c then
      if cur.isEmpty then fieldsLoop rest [] else String.mk cur.reverse :: fieldsLoop rest []
    else fieldsLoop rest (c :: cur)

/-- Go `strings.Fields`: the maximal runs of non-space runes, in order. -/
def stringsFields (s : String) : List String :=
  fieldsLoop s.data []

/-- Go `strconv.Atoi`: the value and whether the error is non-nil. A text that
is not an optional sign followed by decimal digits gives `0` with an error; a
value outside the 64-bit range gives the nearest bound with an error. -/
def strconvAtoi (s : String) : Int × Bool :=
  let signed : Bool × List Char :=
    match s.data with
    | '-' :: rest => (true, rest)
    | '+' :: rest => (false, rest)
    | rest => (false, rest)
  if signed.2.isEmpty then (0, true)
  else
    match digitsValue signed.2 with
    | none => (0, true)
    | some n =>
      if signed.1 then
        if n > 2 ^ 63 then (-(2 ^ 63 : Int), true) else (-(n : Int), false)
      else
        if n ≥ 2 ^ 63 then ((2 ^ 63 : Int) - 1, true) else ((n : Int), false)

/-- The function `getEnvInt` of `src/main/config.go`, as a function of the
text `os.Getenv(key)` returned. -/
def getEnvInt (valueStr : String) (defaultValue : Int) : Int :=
  if valueStr = "" then defaultValue
  else
    let r := strconvAtoi valueStr
    if r.2 then defaultValue else r.1

/-- The method `Bot.handleSearch` on the text of the message: the bot and the
world afterwards. The error of `strconv.Atoi` is tested by an empty `if` in
the source, so only the value is used. -/
def handleSearch (rt : Runtime) (fetch : Fetch) (order : List (String × List String))
    (b : Bot) (w : World) (chatID : Int) (text : String) : Bot × World :=
  let args := stringsFields text
  let r : Bool × Bot :=
    if args.length ≥ 2 then
      if args.length ≥ 3 then
        let destination := stringsToUpper (args.getD 1 "")
        let monthsToSearch := (strconvAtoi (args.getD 2 "")).1
        setDestinationByCityName order b chatID destination monthsToSearch
      else
        let destination := stringsToUpper (args.getD 1 "")
        (true, (setDestinationByCityName order b chatID destination b.config.MonthsToSearch).2)
    else (true, b)
  if !r.1 then (r.2, w)
  else
    let b1 : Bot :=
      { r.2 with sent := r.2.sent ++
          [(chatID, "🔍 <b>Начинаю поиск билетов...</b>\nЭто займет несколько секунд.")] }
    let s := Search b1.config rt fetch w
    match s.1.2 with
    | some err =>
      ({ b1 with sent := b1.sent ++
          [(chatID, "❌ <b>Ошибка при поиске:</b>\n<code>" ++ err ++ "</code>")] }, s.2)
    | none => ({ b1 with sent := b1.sent ++ [(chatID, s.1.1)] }, s.2)

/-- The slice expression `xs[lo:]`: `none` is the run-time panic "slice bounds
out of range" that Go raises when `lo` exceeds the length. -/
def sliceFrom {α : Type} (xs : List α) (lo : Nat) : Option (List α) :=
  if lo ≤ xs.length then some (xs.drop lo) else none

/-- The method `Bot.handleOrigin` on the text of the message: the bot
afterwards, `none` when the handler panics. -/
def handleOrigin (b : Bot) (chatID : Int) (text : String) : Option Bot :=
  let args := stringsFields text
  if args.length ≥ 2 then
    some { b with sent := b.sent ++
      [(chatID, "❌ Укажите город вылета. Например: <code>/origin set москва</code>")] }
  else
    match sliceFrom args 2 with
    | none => none
    | some rest =>
      let cityName := stringsJoin rest " "
      some (setOrigin b chatID cityName).2

/-! ## Month strings of the search (`time.Now().AddDate(0, monthOffset, 0)`) -/

/-- The calendar date of a `time.Time`. -/
structure CivilDate where
  year : Nat
  month : Nat
  day : Nat
  deriving DecidableEq, Repr

/-- Go's normalisation of a day number beyond the end of its month, as done
by `time.Date`: the excess days run on into the following months. `fuel`
bounds the number of months stepped over. -/
def normalizeDay : Nat → Nat → Nat → Nat → CivilDate
  | 0, year, month, day => { year := year, month := month, day := day }
  | fuel + 1, year, month, day =>
    if day > daysIn year month then
      if month = 12 then normalizeDay fuel (year + 1) 1 (day - daysIn year month)
      else normalizeDay fuel year (month + 1) (day - daysIn year month)
    else { year := year, month := month, day := day }

/-- Go `t.AddDate(0, months, 0)` on the date of `t`, for `months ≥ 0`:
`time.Date(year, month + months, day, ...)`, which first carries the month
into the year and then normalises the day. -/
def addMonths (now : CivilDate) (months : Nat) : CivilDate :=
  let total := (now.month - 1) + months
  normalizeDay now.day (now.year + total / 12) (total % 12 + 1) now.day

/-- The call `monthDate.Format("2006-01")`. -/
def formatYearMonth (t : CivilDate) : String :=
  zeroPad 4 t.year ++ "-" ++ zeroPad 2 t.month

/-- The value of `monthStr` in iteration `monthOffset` of the month loop of
`searchFlightsForOrigin`, when `time.Now()` falls on the date `now`. -/
def monthStr (now : CivilDate) (monthOffset : Nat) : String :=
  formatYearMonth (addMonths now monthOffset)

/-- The month strings queried for the offsets below `n`, in loop order. -/
def monthStrings (now : CivilDate) (n : Nat) : List String :=
  (List.range n).map (monthStr now)

/-- The calendar month `k` months after the month of `now`, as `YYYY-MM`. -/
def calendarMonth (now : CivilDate) (k : Nat) : String :=
  formatYearMonth
    { year := now.year + (now.month - 1 + k) / 12, month := (now.month - 1 + k) % 12 + 1, day := 1 }

/-! ## Column positions of the report -/

/-- The rune positions at which `|` stands in a text, counted from `i`. -/
def separatorsFrom : Nat → List Char → List Nat
  | _, [] => []
  | i, c :: rest => if c = '|' then i :: separatorsFrom (i + 1) rest else separatorsFrom (i + 1) rest

/-- The rune positions of the `|` separators of a line. -/
def separatorPositions (line : String) : List Nat :=
  separatorsFrom 0 line.data

/-- The column header line `formatMessage` writes inside `<code>`. -/
def columnHeader : String := "Дата          | Цена    | Время   | Пересад | Рейс\n"

/-- The text of a data row inside its `<code>` element: `formatRow` without the
leading `<code>` tag, up to the closing tag. -/
def rowText (flight : Flight) : String :=
  flight.DepartureDate ++ " " ++ flight.DayOfWeek ++ " | " ++
    padLeft 6 (toString flight.Price) ++ "₽ | " ++ formatDuration flight.Duration ++ " | " ++
    padLeft 7 (getTransfersText flight.Transfers) ++ " | " ++ flight.Airline


/-! ## Reading a rendered duration back -/

/-- One rune of a rendered duration: a digit extends the number being read,
`ч` closes the hours, every other rune is passed over. The state is the hours
read and the number being read. -/
def durationStep (st : Nat × Nat) (c : Char) : Nat × Nat :=
  if c.isDigit then (st.1, 10 * st.2 + (c.toNat - 48))
  else if c = 'ч' then (st.2, 0)
  else st

/-- The minutes a rendered duration stands for: sixty times the number before
`ч`, plus the number after it. -/
def readDuration (s : String) : Nat :=
  let st := s.data.foldl durationStep (0, 0)
  60 * st.1 + st.2


/-! ## Effects of the month loop -/

/-- The events one iteration of the month loop adds: nothing when the request
could not be built, the request alone when the fetch failed afterwards, the
request followed by the sleep when it succeeded. -/
def iterationEvents (origin : String) (monthOffset : Nat) (res : FetchResult) : List Event :=
  match res with
  | .requestError => []
  | _ =>
    if (successfulData res).isSome then [Event.request origin monthOffset, Event.sleep]
    else [Event.request origin monthOffset]

/-- No request event is directly followed by another request event: a sleep
lies between any two consecutive requests of the trace. -/
def sleepBetweenRequests : List Event → Bool
  | [] => true
  | [_] => true
  | a :: b :: rest =>
    (match a, b with
     | .request _ _, .request _ _ => false
     | _, _ => true) && sleepBetweenRequests (b :: rest)

/-- An upstream that answers the first month with HTTP status 429 and every
later month with an empty successful response. -/
def throttledFetch : Fetch := fun _ _ monthOffset =>
  if monthOffset = 0 then .response 429 none else okResponse []


/-! ## The standalone tracker (`src/main.go`) -/

/-- The function `getCityName` of `src/main.go`: `cities[iata]`, the empty
string for a code that is not in its table. -/
def Standalone.getCityName (iata : String) : String :=
  match mapLookup [("OVB", "Новосибирск"), ("BAX", "Барнаул"), ("DPS", "Денпасар (Бали)")] iata with
  | some name => name
  | none => ""

/-- The flights whose rows `formatMessage` of `src/main.go` writes for one
origin: the group after `sort.Slice` with the comparison
`originFlights[i].Duration < originFlights[j].Duration`, cut to
`originFlights[:min(10, len(originFlights))]`. -/
def Standalone.renderedFlights (rt : Runtime) (originFlights : List Flight) : List Flight :=
  let sorted := rt.sortSlice (fun f => f.Duration) originFlights
  sorted.take (min 10 sorted.length).toNat

/-- The header `formatMessage` of `src/main.go` writes for one origin. -/
def Standalone.formatGroupHeader (cfg : AppConfig) (origin : String) : String :=
  let cityName := Standalone.getCityName origin
  let destName := Standalone.getCityName cfg.DestinationIATA
  "🛫 <b>" ++ cityName ++ " → " ++ destName ++ "</b>\n" ++
    "<code>" ++
    "Дата          | Цена    | Время   | Пересад | Рейс\n" ++
    "--------------|---------|---------|---------|------\n" ++
    "</code>"

/-- The body of `for origin, originFlights := range flightsByOrigin` in
`formatMessage` of `src/main.go`; the row is written by the same two
`Sprintf` calls as in `src/main/flight.go`. -/
def Standalone.formatGroup (cfg : AppConfig) (rt : Runtime) (origin : String)
    (originFlights : List Flight) : String :=
  (Standalone.renderedFlights rt originFlights).foldl (fun sb flight => sb ++ formatRow flight)
    (Standalone.formatGroupHeader cfg origin) ++ "\n"

/-- The function `formatMessage` of `src/main.go`. -/
def Standalone.formatMessage (cfg : AppConfig) (rt : Runtime) (flights : List Flight) : String :=
  let byOrigin := flightsByOrigin flights
  let sb := "✈️ <b>НАЙДЕНЫ ДЕШЁВЫЕ БИЛЕТЫ!</b>\n\n"
  let sb := (groupOrder rt flights).foldl
    (fun sb origin =>
      sb ++ Standalone.formatGroup cfg rt origin ((mapLookup byOrigin origin).getD []))
    sb
  sb ++ "📊 <b>Информация:</b>\n" ++ "   • ⏱ - время в пути\n" ++ "   • 🎫 - ссылка на покупку\n"

/-- A fare from OVB at 30000 that takes 300 minutes. -/
def fastDearFlight : Flight :=
  { exampleFlight with Price := 30000, Duration := 300, Link := "/fast" }

/-- A fare from OVB at 20000 that takes 600 minutes. -/
def slowCheapFlight : Flight :=
  { exampleFlight with Price := 20000, Duration := 600, Link := "/slow" }


/-! ## Access control (`src/main/config.go`, `src/main/bot.go`) -/

/-- The loop of Go `strings.Split(s, sep)` for a separator of one rune: `cur`
is the piece being read, kept in reverse. -/
def splitLoop (sep : Char) : List Char → List Char → List String
  | [], cur => [String.mk cur.reverse]
  | c :: rest, cur =>
    if c = sep then String.mk cur.reverse :: splitLoop sep rest []
    else splitLoop sep rest (c :: cur)

/-- Go `strings.Split(s, sep)` for a separator of one rune. -/
def stringsSplit (s : String) (sep : Char) : List String :=
  splitLoop sep s.data []

/-- Go `strconv.ParseInt(s, 10, 64)`: the value and whether the error is
non-nil; in base 10 and 64 bits these are the value and error of `strconv.Atoi`. -/
def strconvParseInt (s : String) : Int × Bool :=
  strconvAtoi s

/-- The function `getEnv` of `src/main/config.go`, as a function of the text
`os.Getenv(key)` returned. -/
def getEnv (value defaultValue : String) : String :=
  if value ≠ "" then value else defaultValue

/-- The loop `for _, idStr := range ids` of `loadConfig`, appending to
`adminUsers`. -/
def appendAdminIDs : List Int → List String → List Int
  | adminUsers, [] => adminUsers
  | adminUsers, idStr :: rest =>
    let r := strconvParseInt (stringsTrimSpace idStr)
    if r.2 = false then appendAdminIDs (adminUsers ++ [r.1]) rest
    else appendAdminIDs adminUsers rest

/-- The value `loadConfig` gives `AdminUsers`, as a function of the text of
the environment variable `ADMIN_USER_IDS` (empty when it is unset). -/
def loadAdminUsers (env : String) : List Int :=
  let adminIDs := getEnv env ""
  if adminIDs ≠ "" then appendAdminIDs [] (stringsSplit adminIDs ',')
  else []

/-- The method `Bot.isUserAllowed`. -/
def isUserAllowed (cfg : AppConfig) (userID : Int) : Bool :=
  if cfg.AdminUsers.length = 0 then true
  else cfg.AdminUsers.any (fun adminID => decide (userID = adminID))

/-! ## The city list (`src/main/flight.go`) -/

theorem acceptedFlights_nil (cfg : AppConfig) (rt : Runtime) (origin : String) :
    acceptedFlights cfg rt origin [] = [] := rfl

theorem acceptedFlights_cons (cfg : AppConfig) (rt : Runtime) (origin : String)
    (r : FlightData) (rest : List FlightData) :
    acceptedFlights cfg rt origin (r :: rest) =
      (if r.Price > cfg.MaxPrice then []
       else if r.Duration > cfg.MaxFlightTime then []
       else match rt.parseRFC3339 r.DepartureAt with
         | none => []
         | some t => [toFlight origin r t]) ++ acceptedFlights cfg rt origin rest := by
  unfold acceptedFlights
  by_cases hp : r.Price > cfg.MaxPrice
  · have : ¬ r.Price ≤ cfg.MaxPrice := not_le.mpr hp
    simp [List.filter_cons, qualifies, hp, this]
  · have hp1 : r.Price ≤ cfg.MaxPrice := not_lt.mp hp
    by_cases hd : r.Duration > cfg.MaxFlightTime
    · have : ¬ r.Duration ≤ cfg.MaxFlightTime := not_le.mpr hd
      simp [List.filter_cons, qualifies, hp, hd, this]
    · have hd1 : r.Duration ≤ cfg.MaxFlightTime := not_lt.mp hd
      cases ht : rt.parseRFC3339 r.DepartureAt with
      | none => simp [List.filter_cons, qualifies, hp, hd, ht]
      | some t => simp [List.filter_cons, qualifies, hp, hd, hp1, hd1, ht]

theorem appendAccepted_eq (cfg : AppConfig) (rt : Runtime) (origin : String)
    (data : List FlightData) :
    ∀ flights, appendAccepted cfg rt origin flights data =
      flights ++ acceptedFlights cfg rt origin data := by
  induction data with
  | nil => intro flights; simp [appendAccepted, acceptedFlights_nil]
  | cons r rest ih =>
    intro flights
    rw [acceptedFlights_cons]
    unfold appendAccepted
    by_cases hp : r.Price > cfg.MaxPrice
    · simp [hp, ih]
    · by_cases hd : r.Duration > cfg.MaxFlightTime
      · simp [hp, hd, ih]
      · cases ht : rt.parseRFC3339 r.DepartureAt with
        | none => simp [hp, hd, ih]
        | some t => simp [hp, hd, ih]

theorem monthIteration_flights (cfg : AppConfig) (rt : Runtime) (fetch : Fetch)
    (origin : String) (st : List Flight × World) (j : Nat) :
    (monthIteration cfg rt fetch origin st j).1 =
      st.1 ++ fetchContribution cfg rt origin (fetch st.2.attempts origin j) := by
  unfold monthIteration fetchContribution
  cases hres : fetch st.2.attempts origin j with
  | requestError => simp [hres, successfulData]
  | networkError => simp [hres, successfulData]
  | response code body =>
    cases body with
    | none => by_cases hc : code = 200 <;> simp [hres, successfulData, hc]
    | some resp =>
      by_cases hc : code = 200
      · cases hs : resp.Success <;> simp [hres, successfulData, hc, hs, appendAccepted_eq]
      · simp [hres, successfulData, hc]

theorem monthIteration_attempts (cfg : AppConfig) (rt : Runtime) (fetch : Fetch)
    (origin : String) (st : List Flight × World) (j : Nat) :
    (monthIteration cfg rt fetch origin st j).2.attempts = st.2.attempts + 1 := by
  unfold monthIteration
  cases hres : fetch st.2.attempts origin j with
  | requestError => simp [hres]
  | networkError => simp [hres]
  | response code body =>
    cases body with
    | none => by_cases hc : code = 200 <;> simp [hres, hc]
    | some resp =>
      by_cases hc : code = 200
      · cases hs : resp.Success <;> simp [hres, hc, hs]
      · simp [hres, hc]

theorem monthLoop_closed (cfg : AppConfig) (rt : Runtime) (fetch : Fetch) (origin : String)
    (w : World) (n : Nat) :
    ((List.range n).foldl (monthIteration cfg rt fetch origin) ([], w)).1 =
        (List.range n).flatMap (fun j =>
          fetchContribution cfg rt origin (fetch (w.attempts + j) origin j)) ∧
      ((List.range n).foldl (monthIteration cfg rt fetch origin) ([], w)).2.attempts =
        w.attempts + n := by
  induction n with
  | zero => simp
  | succ n ih =>
    rw [List.range_succ, List.foldl_append, List.flatMap_append]
    simp only [List.foldl_cons, List.foldl_nil]
    constructor
    · rw [monthIteration_flights, ih.1, ih.2]
      simp
    · rw [monthIteration_attempts, ih.2]
      omega

theorem searchFlightsForOrigin_flights (cfg : AppConfig) (rt : Runtime) (fetch : Fetch)
    (origin : String) (w : World) :
    (searchFlightsForOrigin cfg rt fetch origin w).1 =
      (List.range cfg.MonthsToSearch.toNat).flatMap (fun j =>
        fetchContribution cfg rt origin (fetch (w.attempts + j) origin j)) :=
  (monthLoop_closed cfg rt fetch origin w _).1

theorem searchFlightsForOrigin_attempts (cfg : AppConfig) (rt : Runtime) (fetch : Fetch)
    (origin : String) (w : World) :
    (searchFlightsForOrigin cfg rt fetch origin w).2.attempts =
      w.attempts + cfg.MonthsToSearch.toNat :=
  (monthLoop_closed cfg rt fetch origin w _).2

/-- The origin loop of `Search` started from any accumulator and world, over
any list of origins numbered from `i0`. -/
theorem originLoop_closed (cfg : AppConfig) (rt : Runtime) (fetch : Fetch) (start : Nat)
    (origins : List String) :
    ∀ (i0 : Nat) (acc : List Flight) (w : World),
      w.attempts = start + i0 * cfg.MonthsToSearch.toNat →
      (origins.foldl
        (fun (st : List Flight × World) origin =>
          let r := searchFlightsForOrigin cfg rt fetch origin st.2
          (st.1 ++ r.1, r.2))
        (acc, w)).1 =
      acc ++ (origins.enumFrom i0).flatMap (fun p =>
        (List.range cfg.MonthsToSearch.toNat).flatMap (fun j =>
          fetchContribution cfg rt p.2
            (fetch (start + p.1 * cfg.MonthsToSearch.toNat + j) p.2 j))) := by
  induction origins with
  | nil => intro i0 acc w _; simp
  | cons o rest ih =>
    intro i0 acc w hw
    simp only [List.foldl_cons, List.enumFrom_cons, List.flatMap_cons]
    rw [ih (i0 + 1) _ _ (by rw [searchFlightsForOrigin_attempts, hw]; ring)]
    rw [searchFlightsForOrigin_flights, hw, List.append_assoc]

theorem collectFlights_eq (cfg : AppConfig) (rt : Runtime) (fetch : Fetch) (w : World) :
    (collectFlights cfg rt fetch w).1 = expectedFlights cfg rt fetch w.attempts := by
  unfold collectFlights expectedFlights
  rw [originLoop_closed cfg rt fetch w.attempts cfg.OriginIATA 0 [] w (by simp)]
  simp [List.enum]

theorem mem_acceptedFlights {cfg : AppConfig} {rt : Runtime} {origin : String}
    {data : List FlightData} {f : Flight} :
    f ∈ acceptedFlights cfg rt origin data ↔
      ∃ r ∈ data, ∃ t, r.Price ≤ cfg.MaxPrice ∧ r.Duration ≤ cfg.MaxFlightTime ∧
        rt.parseRFC3339 r.DepartureAt = some t ∧ f = toFlight origin r t := by
  unfold acceptedFlights
  simp only [List.mem_filterMap, List.mem_filter, qualifies, Bool.and_eq_true,
    decide_eq_true_eq, Option.map_eq_some']
  constructor
  · rintro ⟨r, ⟨hr, ⟨hp, hd⟩, _⟩, t, ht, rfl⟩
    exact ⟨r, hr, t, hp, hd, ht, rfl⟩
  · rintro ⟨r, hr, t, hp, hd, ht, rfl⟩
    exact ⟨r, ⟨hr, ⟨hp, hd⟩, by simp [ht]⟩, t, ht, rfl⟩

theorem fetchContribution_within (cfg : AppConfig) (rt : Runtime) (origin : String)
    (res : FetchResult) (f : Flight) (hf : f ∈ fetchContribution cfg rt origin res) :
    f.Price ≤ cfg.MaxPrice ∧ f.Duration ≤ cfg.MaxFlightTime ∧ f.Origin = origin := by
  unfold fetchContribution at hf
  cases hres : successfulData res with
  | none => simp [hres] at hf
  | some data =>
    simp only [hres] at hf
    obtain ⟨r, _, t, hp, hd, _, rfl⟩ := mem_acceptedFlights.mp hf
    exact ⟨hp, hd, rfl⟩

theorem mem_expectedFlights {cfg : AppConfig} {rt : Runtime} {fetch : Fetch} {start : Nat}
    {f : Flight} :
    f ∈ expectedFlights cfg rt fetch start ↔
      ∃ i origin j, cfg.OriginIATA[i]? = some origin ∧ j < cfg.MonthsToSearch.toNat ∧
        f ∈ fetchContribution cfg rt origin
          (fetch (start + i * cfg.MonthsToSearch.toNat + j) origin j) := by
  unfold expectedFlights
  simp only [List.mem_flatMap, List.mem_range]
  constructor
  · rintro ⟨⟨i, o⟩, hp, j, hj, hf⟩
    exact ⟨i, o, j, (List.mk_mem_enum_iff_getElem?).mp hp, hj, hf⟩
  · rintro ⟨i, o, j, hio, hj, hf⟩
    exact ⟨(i, o), (List.mk_mem_enum_iff_getElem?).mpr hio, j, hj, hf⟩

/-! ## Grouping by origin -/

theorem keys_appendToGroup (f : Flight) (m : List (String × List Flight)) (k : String) :
    k ∈ (appendToGroup f m).map Prod.fst ↔ k ∈ m.map Prod.fst ∨ k = f.Origin := by
  induction m with
  | nil => simp [appendToGroup]
  | cons e m ih =>
    obtain ⟨o, g⟩ := e
    unfold appendToGroup
    by_cases h : o = f.Origin
    · simp only [h, if_true, List.map_cons, List.mem_cons]
      tauto
    · simp only [h, if_false, List.map_cons, List.mem_cons, ih]
      tauto

theorem nodup_keys_appendToGroup (f : Flight) (m : List (String × List Flight))
    (hm : (m.map Prod.fst).Nodup) : ((appendToGroup f m).map Prod.fst).Nodup := by
  induction m with
  | nil => simp [appendToGroup]
  | cons e m ih =>
    obtain ⟨o, g⟩ := e
    unfold appendToGroup
    by_cases h : o = f.Origin
    · simpa [h] using hm
    · simp only [h, if_false, List.map_cons, List.nodup_cons] at hm ⊢
      refine ⟨?_, ih hm.2⟩
      intro hmem
      rcases (keys_appendToGroup f m o).mp hmem with h1 | h1
      · exact hm.1 h1
      · exact h h1

theorem lookup_appendToGroup (f : Flight) (m : List (String × List Flight)) (k : String) :
    (mapLookup (appendToGroup f m) k).getD [] =
      (mapLookup m k).getD [] ++ (if f.Origin = k then [f] else []) := by
  induction m with
  | nil =>
    by_cases h : f.Origin = k <;> simp [appendToGroup, mapLookup, h]
  | cons e m ih =>
    obtain ⟨o, g⟩ := e
    unfold appendToGroup
    by_cases h : o = f.Origin
    · by_cases hk : o = k
      · have : f.Origin = k := h ▸ hk
        simp [h, mapLookup, this]
      · have : ¬ f.Origin = k := fun hh => hk (h.trans hh)
        simp [h, mapLookup, this]
    · by_cases hk : o = k
      · subst hk
        have : ¬ f.Origin = o := fun hh => h hh.symm
        simp [h, mapLookup, this]
      · simp only [h, if_false, mapLookup, hk, ih]

theorem groupLoop_spec (flights : List Flight) :
    ∀ m : List (String × List Flight), (m.map Prod.fst).Nodup →
      ((flights.foldl (fun m flight => appendToGroup flight m) m).map Prod.fst).Nodup ∧
      (∀ k, k ∈ (flights.foldl (fun m flight => appendToGroup flight m) m).map Prod.fst ↔
        k ∈ m.map Prod.fst ∨ ∃ f ∈ flights, f.Origin = k) ∧
      (∀ k, (mapLookup (flights.foldl (fun m flight => appendToGroup flight m) m) k).getD [] =
        (mapLookup m k).getD [] ++ faresOf k flights) := by
  induction flights with
  | nil => intro m hm; simp [faresOf, hm]
  | cons f rest ih =>
    intro m hm
    obtain ⟨h1, h2, h3⟩ := ih (appendToGroup f m) (nodup_keys_appendToGroup f m hm)
    refine ⟨h1, ?_, ?_⟩
    · intro k
      simp only [List.foldl_cons, h2, keys_appendToGroup, List.mem_cons, exists_eq_or_imp]
      constructor
      · rintro ((h | h) | h)
        · exact Or.inl h
        · exact Or.inr (Or.inl h.symm)
        · exact Or.inr (Or.inr h)
      · rintro (h | h | h)
        · exact Or.inl (Or.inl h)
        · exact Or.inl (Or.inr h.symm)
        · exact Or.inr h
    · intro k
      simp only [List.foldl_cons, h3, lookup_appendToGroup, faresOf, List.filter_cons]
      by_cases hk : f.Origin = k <;> simp [hk]

theorem flightsByOrigin_keys_nodup (flights : List Flight) :
    ((flightsByOrigin flights).map Prod.fst).Nodup :=
  (groupLoop_spec flights [] (by simp)).1

theorem mem_flightsByOrigin_keys (flights : List Flight) (k : String) :
    k ∈ (flightsByOrigin flights).map Prod.fst ↔ ∃ f ∈ flights, f.Origin = k := by
  have := (groupLoop_spec flights [] (by simp)).2.1 k
  simpa [flightsByOrigin] using this

theorem flightsByOrigin_group (flights : List Flight) (k : String) :
    (mapLookup (flightsByOrigin flights) k).getD [] = faresOf k flights := by
  have := (groupLoop_spec flights [] (by simp)).2.2 k
  simpa [flightsByOrigin, mapLookup] using this

theorem mem_groupOrder (rt : Runtime) (hrt : rt.Lawful) (flights : List Flight) (k : String) :
    k ∈ groupOrder rt flights ↔ ∃ f ∈ flights, f.Origin = k := by
  unfold groupOrder
  rw [(hrt.range_perm _).mem_iff, mem_flightsByOrigin_keys]

theorem exampleRuntime_lawful : exampleRuntime.Lawful where
  sort_perm := fun key xs => List.perm_insertionSort _ xs
  sort_sorted := fun key xs => by
    have : IsTotal Flight (fun a b => key a ≤ key b) := ⟨fun a b => le_total _ _⟩
    have : IsTrans Flight (fun a b => key a ≤ key b) := ⟨fun a b c => le_trans⟩
    exact List.sorted_insertionSort (fun a b => key a ≤ key b) xs
  range_perm := fun keys => List.Perm.refl keys

/-! ## Text of the report -/

theorem foldl_append_data {α : Type} (g : α → String) (l : List α) :
    ∀ init : String,
      (l.foldl (fun sb a => sb ++ g a) init).data = init.data ++ (l.map (fun a => (g a).data)).flatten := by
  induction l with
  | nil => intro init; simp
  | cons a l ih => intro init; simp [ih, String.data_append, List.append_assoc]

theorem foldl_append_eq_join {α : Type} (g : α → String) (l : List α) (init : String) :
    l.foldl (fun sb a => sb ++ g a) init = init ++ String.join (l.map g) := by
  apply String.ext
  rw [foldl_append_data, String.data_append, String.data_join]
  simp [List.map_map, Function.comp_def]

theorem formatMessage_head (cfg : AppConfig) (rt : Runtime) (flights : List Flight) :
    (formatMessage cfg rt flights).data.head? = some '✈' := by
  unfold formatMessage
  simp only [String.data_append, foldl_append_data]
  rfl

theorem Search_of_nil (cfg : AppConfig) (rt : Runtime) (fetch : Fetch) (w : World)
    (h : (collectFlights cfg rt fetch w).1 = []) :
    (Search cfg rt fetch w).1 = (noFlightsMessage, none) := by
  simp [Search, h]

theorem Search_of_ne_nil (cfg : AppConfig) (rt : Runtime) (fetch : Fetch) (w : World)
    (h : (collectFlights cfg rt fetch w).1 ≠ []) :
    (Search cfg rt fetch w).1 =
      (formatMessage cfg rt (collectFlights cfg rt fetch w).1, none) := by
  have : 0 < (collectFlights cfg rt fetch w).1.length := List.length_pos.mpr h
  simp [Search, this]

theorem acceptedFlights_forall₂ (cfg : AppConfig) (rt : Runtime) (origin : String)
    (data : List FlightData) :
    List.Forall₂
      (fun r f => ∃ t, rt.parseRFC3339 r.DepartureAt = some t ∧ f = toFlight origin r t)
      (data.filter (qualifies cfg rt)) (acceptedFlights cfg rt origin data) := by
  induction data with
  | nil => simp [acceptedFlights_nil]
  | cons r rest ih =>
    rw [acceptedFlights_cons]
    by_cases hp : r.Price > cfg.MaxPrice
    · have : ¬ r.Price ≤ cfg.MaxPrice := not_le.mpr hp
      simpa [List.filter_cons, qualifies, hp, this] using ih
    · have hp1 : r.Price ≤ cfg.MaxPrice := not_lt.mp hp
      by_cases hd : r.Duration > cfg.MaxFlightTime
      · have : ¬ r.Duration ≤ cfg.MaxFlightTime := not_le.mpr hd
        simpa [List.filter_cons, qualifies, hp, hd, this] using ih
      · have hd1 : r.Duration ≤ cfg.MaxFlightTime := not_lt.mp hd
        cases ht : rt.parseRFC3339 r.DepartureAt with
        | none => simpa [List.filter_cons, qualifies, hp, hd, ht] using ih
        | some t =>
          have hq : qualifies cfg rt r = true := by simp [qualifies, hp1, hd1, ht]
          simp only [List.filter_cons, hq, if_true, hp, hd, if_false, List.singleton_append]
          exact List.Forall₂.cons ⟨t, ht, rfl⟩ ih

/-! ## Claims on the search -/

/-- C1: every Flight in the list returned by `searchFlightsForOrigin`, and every
Flight in the list `Search` accumulates over all origins, has `Price` at most
`MaxPrice` and `Duration` at most `MaxFlightTime`, for every configuration,
every parser and every sequence of upstream responses. -/
theorem search_results_within_ceilings (cfg : AppConfig) (rt : Runtime) (fetch : Fetch)
    (w : World) :
    (∀ origin, ∀ f ∈ (searchFlightsForOrigin cfg rt fetch origin w).1,
        f.Price ≤ cfg.MaxPrice ∧ f.Duration ≤ cfg.MaxFlightTime) ∧
    (∀ f ∈ (collectFlights cfg rt fetch w).1,
        f.Price ≤ cfg.MaxPrice ∧ f.Duration ≤ cfg.MaxFlightTime) := by
  constructor
  · intro origin f hf
    rw [searchFlightsForOrigin_flights, List.mem_flatMap] at hf
    obtain ⟨j, _, hj⟩ := hf
    exact ⟨(fetchContribution_within cfg rt origin _ f hj).1,
      (fetchContribution_within cfg rt origin _ f hj).2.1⟩
  · intro f hf
    rw [collectFlights_eq, mem_expectedFlights] at hf
    obtain ⟨i, origin, j, _, _, hj⟩ := hf
    exact ⟨(fetchContribution_within cfg rt origin _ f hj).1,
      (fetchContribution_within cfg rt origin _ f hj).2.1⟩

/-- Witness for C1: with origins OVB and BAX, ceilings 35000 and 1440, the list
collected is exactly the OVB fare at 28000 and 600 minutes (the BAX record at
40000 is not in it), and that fare is within both ceilings. -/
theorem search_results_within_ceilings_witness :
    (collectFlights exampleConfig exampleRuntime exampleFetch World.start).1 = [exampleFlight] ∧
    exampleFlight.Price ≤ exampleConfig.MaxPrice ∧
    exampleFlight.Duration ≤ exampleConfig.MaxFlightTime :=
  ⟨by decide,
   (search_results_within_ceilings exampleConfig exampleRuntime exampleFetch World.start).2
     exampleFlight (by decide)⟩

/-- C2: when the month loop runs once and its fetch succeeds (status 200, body
decoded, `success` set), the Flights returned by `searchFlightsForOrigin`
correspond one to one, in upstream order, to the records of the response with
`Price ≤ MaxPrice`, `Duration ≤ MaxFlightTime` and a departure timestamp that
parses; each Flight is built from its record and the parsed time. -/
theorem single_response_keeps_exactly_qualifying (cfg : AppConfig) (rt : Runtime)
    (fetch : Fetch) (origin : String) (w : World) (resp : APIResponse)
    (hm : cfg.MonthsToSearch = 1)
    (hres : fetch w.attempts origin 0 = FetchResult.response 200 (some resp))
    (hs : resp.Success = true) :
    List.Forall₂
      (fun r f => ∃ t, rt.parseRFC3339 r.DepartureAt = some t ∧ f = toFlight origin r t)
      (resp.Data.filter (fun r =>
        decide (r.Price ≤ cfg.MaxPrice) && decide (r.Duration ≤ cfg.MaxFlightTime) &&
          (rt.parseRFC3339 r.DepartureAt).isSome))
      (searchFlightsForOrigin cfg rt fetch origin w).1 := by
  have h1 : (searchFlightsForOrigin cfg rt fetch origin w).1 =
      acceptedFlights cfg rt origin resp.Data := by
    rw [searchFlightsForOrigin_flights, hm]
    have h0 : (1 : Int).toNat = 1 := rfl
    have h1 : List.range 1 = [0] := rfl
    rw [h0, h1, List.flatMap_cons, List.flatMap_nil, Nat.add_zero, hres]
    simp [fetchContribution, successfulData, hs]
  rw [h1]
  exact acceptedFlights_forall₂ cfg rt origin resp.Data

/-- Witness for C2: of the five records of `ceilingResponse` the first (at both
ceilings) and the fifth are kept, in that order, and the three rejected records
between them do not stop the fifth from being considered. -/
theorem single_response_keeps_exactly_qualifying_witness :
    (searchFlightsForOrigin singleMonthConfig exampleRuntime ceilingFetch "OVB" World.start).1.map
        (fun f => (f.Price, f.Duration, f.Link)) =
      [(35000, 1440, "https://aviasales.ru/a"), (28000, 600, "https://aviasales.ru/e")] ∧
    List.Forall₂
      (fun r f => ∃ t, exampleRuntime.parseRFC3339 r.DepartureAt = some t ∧ f = toFlight "OVB" r t)
      (ceilingResponse.Data.filter (fun r =>
        decide (r.Price ≤ singleMonthConfig.MaxPrice) &&
          decide (r.Duration ≤ singleMonthConfig.MaxFlightTime) &&
          (exampleRuntime.parseRFC3339 r.DepartureAt).isSome))
      (searchFlightsForOrigin singleMonthConfig exampleRuntime ceilingFetch "OVB" World.start).1 :=
  ⟨by decide,
   single_response_keeps_exactly_qualifying singleMonthConfig exampleRuntime ceilingFetch "OVB"
     World.start ceilingResponse rfl rfl rfl⟩

/-- C3: the list `Search` accumulates equals the concatenation, over the
origins in configured order and the month offsets below `MonthsToSearch` in
ascending order, of the accepted records of each successful fetch, a failed
fetch (request, network, status, decoding or `success = false`) adding nothing.
In particular, when every fetch for origin `A` fails and some fetch made for a
configured origin `B` returns a qualifying record, `Search` returns a nil error
with the report of `formatMessage`, whose groups include `B` and not `A`. -/
theorem search_concatenates_successful_fetches (cfg : AppConfig) (rt : Runtime)
    (hrt : rt.Lawful) (fetch : Fetch) (w : World) :
    (collectFlights cfg rt fetch w).1 = expectedFlights cfg rt fetch w.attempts ∧
    ∀ A B : String,
      (∀ k j, successfulData (fetch k A j) = none) →
      (∃ i j data r, cfg.OriginIATA[i]? = some B ∧ j < cfg.MonthsToSearch.toNat ∧
        successfulData (fetch (w.attempts + i * cfg.MonthsToSearch.toNat + j) B j) = some data ∧
        r ∈ data ∧ qualifies cfg rt r = true) →
      (Search cfg rt fetch w).1 =
          (formatMessage cfg rt (collectFlights cfg rt fetch w).1, none) ∧
        B ∈ groupOrder rt (collectFlights cfg rt fetch w).1 ∧
        A ∉ groupOrder rt (collectFlights cfg rt fetch w).1 := by
  refine ⟨collectFlights_eq cfg rt fetch w, ?_⟩
  rintro A B hA ⟨i, j, data, r, hi, hj, hdata, hr, hq⟩
  simp only [qualifies, Bool.and_eq_true, decide_eq_true_eq, Option.isSome_iff_exists] at hq
  obtain ⟨⟨hp, hd⟩, t, ht⟩ := hq
  have hmem : toFlight B r t ∈ (collectFlights cfg rt fetch w).1 := by
    rw [collectFlights_eq, mem_expectedFlights]
    refine ⟨i, B, j, hi, hj, ?_⟩
    simp only [fetchContribution, hdata]
    exact mem_acceptedFlights.mpr ⟨r, hr, t, hp, hd, ht, rfl⟩
  refine ⟨Search_of_ne_nil cfg rt fetch w (List.ne_nil_of_mem hmem), ?_, ?_⟩
  · exact (mem_groupOrder rt hrt _ B).mpr ⟨_, hmem, rfl⟩
  · intro hAmem
    obtain ⟨f, hf, hfA⟩ := (mem_groupOrder rt hrt _ A).mp hAmem
    rw [collectFlights_eq, mem_expectedFlights] at hf
    obtain ⟨i', o, j', _, _, hc⟩ := hf
    have ho : f.Origin = o := (fetchContribution_within cfg rt o _ f hc).2.2
    have hoA : o = A := ho.symm.trans hfA
    subst hoA
    simp [fetchContribution, hA] at hc

/-- Witness for C3: with origins OVB and BAX, every OVB fetch failing and the
BAX fetches returning a fare within the ceilings, `Search` returns a report
with a nil error whose groups are BAX only. -/
theorem search_concatenates_successful_fetches_witness :
    (Search exampleConfig exampleRuntime outageFetch World.start).1 =
        (formatMessage exampleConfig exampleRuntime
          (collectFlights exampleConfig exampleRuntime outageFetch World.start).1, none) ∧
      "BAX" ∈ groupOrder exampleRuntime
        (collectFlights exampleConfig exampleRuntime outageFetch World.start).1 ∧
      "OVB" ∉ groupOrder exampleRuntime
        (collectFlights exampleConfig exampleRuntime outageFetch World.start).1 :=
  (search_concatenates_successful_fetches exampleConfig exampleRuntime exampleRuntime_lawful
      outageFetch World.start).2 "OVB" "BAX" (fun _ _ => rfl)
    ⟨1, 0, _, _, by decide, by decide, rfl, List.mem_singleton.mpr rfl, by decide⟩

/-- C4: whenever the list accumulated by `Search` is empty, and in particular
when the origin list is empty or `MonthsToSearch` is zero or negative, `Search`
returns the fixed text "ℹ️ Дешёвых билетов не найдено." with a nil error; that
text is not empty and is not a report of `formatMessage`, which always begins
with the banner. -/
theorem search_reports_nothing_found (cfg : AppConfig) (rt : Runtime) (fetch : Fetch)
    (w : World) :
    ((collectFlights cfg rt fetch w).1 = [] →
        (Search cfg rt fetch w).1 = ("ℹ️ Дешёвых билетов не найдено.", none)) ∧
    (cfg.OriginIATA = [] →
        (Search cfg rt fetch w).1 = ("ℹ️ Дешёвых билетов не найдено.", none)) ∧
    (cfg.MonthsToSearch ≤ 0 →
        (Search cfg rt fetch w).1 = ("ℹ️ Дешёвых билетов не найдено.", none)) ∧
    (∀ flights, "ℹ️ Дешёвых билетов не найдено." ≠ formatMessage cfg rt flights) ∧
    "ℹ️ Дешёвых билетов не найдено." ≠ "" := by
  refine ⟨fun h => Search_of_nil cfg rt fetch w h, fun h => ?_, fun h => ?_, ?_, by decide⟩
  · apply Search_of_nil
    simp [collectFlights, h]
  · apply Search_of_nil
    rw [collectFlights_eq]
    have h0 : cfg.MonthsToSearch.toNat = 0 := Int.toNat_eq_zero.mpr h
    simp [expectedFlights, h0]
  · intro flights heq
    have h1 := formatMessage_head cfg rt flights
    rw [← heq] at h1
    exact absurd h1 (by decide)

/-- Witness for C4: with every fetch failing, `Search` on the example
configuration returns the fixed text and a nil error. -/
theorem search_reports_nothing_found_witness :
    (collectFlights exampleConfig exampleRuntime downFetch World.start).1 = [] ∧
    (Search exampleConfig exampleRuntime downFetch World.start).1 =
      ("ℹ️ Дешёвых билетов не найдено.", none) :=
  ⟨by decide,
   (search_reports_nothing_found exampleConfig exampleRuntime downFetch World.start).1
     (by decide)⟩

/-! ## Claims on the report -/

theorem min_ten_toNat (n : Nat) : (min 10 (n : Int)).toNat = Nat.min 10 n := by
  unfold min
  split <;> simp only [Nat.min_def] <;> split <;> omega

theorem renderedFlights_eq (rt : Runtime) (g : List Flight) :
    renderedFlights rt g = (rt.sortSlice (fun f => f.Price) g).take 10 := by
  unfold renderedFlights
  simp only [min_ten_toNat]
  by_cases h : 10 ≤ (rt.sortSlice (fun f => f.Price) g).length
  · have h1 : Nat.min 10 (rt.sortSlice (fun f => f.Price) g).length = 10 := by
      simp only [Nat.min_def]; split <;> omega
    rw [h1]
  · have h1 : Nat.min 10 (rt.sortSlice (fun f => f.Price) g).length =
        (rt.sortSlice (fun f => f.Price) g).length := by
      simp only [Nat.min_def]; split <;> omega
    rw [h1, List.take_of_length_le (le_refl _), List.take_of_length_le (by omega)]

theorem renderedFlights_sublist (rt : Runtime) (g : List Flight) :
    (renderedFlights rt g).Sublist (rt.sortSlice (fun f => f.Price) g) :=
  List.take_sublist _ _

theorem renderedFlights_sorted (rt : Runtime) (hrt : rt.Lawful) (g : List Flight) :
    (renderedFlights rt g).Pairwise (fun a b => a.Price ≤ b.Price) :=
  (hrt.sort_sorted (fun f => f.Price) g).sublist (renderedFlights_sublist rt g)

theorem renderedFlights_origin (rt : Runtime) (hrt : rt.Lawful) (origin : String)
    (flights : List Flight) :
    ∀ f ∈ renderedFlights rt (faresOf origin flights), f.Origin = origin := by
  intro f hf
  have h1 : f ∈ rt.sortSlice (fun f => f.Price) (faresOf origin flights) :=
    (renderedFlights_sublist rt _).subset hf
  have h2 : f ∈ faresOf origin flights := (hrt.sort_perm _ _).mem_iff.mp h1
  simpa [faresOf] using (List.mem_filter.mp h2).2

theorem renderedFlights_nil (rt : Runtime) (hrt : rt.Lawful) : renderedFlights rt [] = [] := by
  rw [renderedFlights_eq rt, (hrt.sort_perm _ []).eq_nil]
  rfl

theorem renderedFlights_prices (rt : Runtime) (hrt : rt.Lawful) (g : List Flight) :
    (renderedFlights rt g).map (fun f => f.Price) =
      ((g.map (fun f => f.Price)).insertionSort (fun a b => a ≤ b)).take 10 := by
  rw [renderedFlights_eq rt, List.map_take]
  congr 1
  apply List.eq_of_perm_of_sorted (r := fun a b : Int => a ≤ b)
  · exact ((hrt.sort_perm _ g).map _).trans (List.perm_insertionSort _ _).symm
  · exact List.pairwise_map.mpr (hrt.sort_sorted (fun f => f.Price) g)
  · exact List.sorted_insertionSort _ _

theorem filter_flatMap_groups (origin : String) (F : String → List Flight) (L : List String)
    (hL : L.Nodup) (hF : ∀ o ∈ L, ∀ f ∈ F o, f.Origin = o) :
    (L.flatMap F).filter (fun f => decide (f.Origin = origin)) =
      if origin ∈ L then F origin else [] := by
  induction L with
  | nil => simp
  | cons o L ih =>
    have hnd := List.nodup_cons.mp hL
    have ih1 := ih hnd.2 (fun o1 ho1 => hF o1 (List.mem_cons_of_mem _ ho1))
    rw [List.flatMap_cons, List.filter_append, ih1]
    by_cases ho : o = origin
    · subst ho
      have hall : (F o).filter (fun f => decide (f.Origin = o)) = F o :=
        List.filter_eq_self.mpr (fun f hf => by simp [hF o (List.mem_cons_self _ _) f hf])
      simp [hall, hnd.1]
    · have hnone : (F o).filter (fun f => decide (f.Origin = origin)) = [] :=
        List.filter_eq_nil_iff.mpr (fun f hf => by
          simp [hF o (List.mem_cons_self _ _) f hf, ho])
      have hne : ¬ origin = o := fun h => ho h.symm
      simp [hnone, hne]

theorem reportRows_eq (rt : Runtime) (flights : List Flight) :
    reportRows rt flights =
      (groupOrder rt flights).flatMap (fun o => renderedFlights rt (faresOf o flights)) := by
  unfold reportRows
  simp only [flightsByOrigin_group]

theorem formatGroup_eq (cfg : AppConfig) (rt : Runtime) (origin : String) (g : List Flight) :
    formatGroup cfg rt origin g =
      formatGroupHeader cfg origin ++ String.join ((renderedFlights rt g).map formatRow) ++ "\n" := by
  unfold formatGroup
  rw [foldl_append_eq_join]

theorem formatMessage_eq (cfg : AppConfig) (rt : Runtime) (flights : List Flight) :
    formatMessage cfg rt flights =
      "✈️ <b>НАЙДЕНЫ ДЕШЁВЫЕ БИЛЕТЫ!</b>\n\n" ++
        String.join ((groupOrder rt flights).map
          (fun o => formatGroup cfg rt o (faresOf o flights))) ++
        "📊 <b>Информация:</b>\n" ++ "   • 🎫 - ссылка на покупку\n" := by
  unfold formatMessage
  simp only [flightsByOrigin_group]
  rw [foldl_append_eq_join]

/-- C5: for every list of Flights and every origin, the group `formatMessage`
keeps for the origin is the Flights of that origin, the text it writes for the
group is the header followed by one row per rendered Flight in order, and the
rendered Flights are in non-decreasing order of `Price`. -/
theorem rendered_rows_nondecreasing_in_price (cfg : AppConfig) (rt : Runtime)
    (hrt : rt.Lawful) (flights : List Flight) (origin : String) :
    (mapLookup (flightsByOrigin flights) origin).getD [] = faresOf origin flights ∧
    formatGroup cfg rt origin (faresOf origin flights) =
      formatGroupHeader cfg origin ++
        String.join ((renderedFlights rt (faresOf origin flights)).map formatRow) ++ "\n" ∧
    (renderedFlights rt (faresOf origin flights)).Pairwise (fun a b => a.Price ≤ b.Price) :=
  ⟨flightsByOrigin_group flights origin, formatGroup_eq cfg rt origin _,
   renderedFlights_sorted rt hrt _⟩

/-- Witness for C5: the twelve OVB fares given in descending price order are
rendered in ascending price order. -/
theorem rendered_rows_nondecreasing_in_price_witness :
    (renderedFlights exampleRuntime (faresOf "OVB" twelveFares)).map (fun f => f.Price) =
      [1000, 2000, 3000, 4000, 5000, 6000, 7000, 8000, 9000, 10000] ∧
    (renderedFlights exampleRuntime (faresOf "OVB" twelveFares)).Pairwise
      (fun a b => a.Price ≤ b.Price) :=
  ⟨by decide,
   (rendered_rows_nondecreasing_in_price exampleConfig exampleRuntime exampleRuntime_lawful
     twelveFares "OVB").2.2⟩

/-- C6: for every list of Flights and every origin with `n` Flights, the group
`formatMessage` passes to the row loop is the Flights of that origin, and the
text written for the group is the header followed by exactly `min(10, n)` data
rows, one non-empty `formatRow` text per rendered Flight, in order. The prices
of the rendered Flights, in row order, are the first ten entries of the
group's prices sorted ascending (so for `n > 10` the ten smallest prices of
the group, as a multiset). The whole report is the banner, then for each
origin in `range` order its header and these rows, then the footer, so the
rows of the report that carry this origin are these Flights and no others. -/
theorem group_rows_are_ten_cheapest (cfg : AppConfig) (rt : Runtime) (hrt : rt.Lawful)
    (flights : List Flight) (origin : String) :
    (renderedFlights rt (faresOf origin flights)).length =
        Nat.min 10 (faresOf origin flights).length ∧
    (renderedFlights rt (faresOf origin flights)).map (fun f => f.Price) =
        (((faresOf origin flights).map (fun f => f.Price)).insertionSort (fun a b => a ≤ b)).take 10 ∧
    (reportRows rt flights).filter (fun f => decide (f.Origin = origin)) =
        renderedFlights rt (faresOf origin flights) ∧
    formatMessage cfg rt flights =
      "✈️ <b>НАЙДЕНЫ ДЕШЁВЫЕ БИЛЕТЫ!</b>\n\n" ++
        String.join ((groupOrder rt flights).map
          (fun o => formatGroup cfg rt o (faresOf o flights))) ++
        "📊 <b>Информация:</b>\n" ++ "   • 🎫 - ссылка на покупку\n" ∧
    (mapLookup (flightsByOrigin flights) origin).getD [] = faresOf origin flights ∧
    formatGroup cfg rt origin (faresOf origin flights) =
      formatGroupHeader cfg origin ++
        String.join ((renderedFlights rt (faresOf origin flights)).map formatRow) ++ "\n" ∧
    ((renderedFlights rt (faresOf origin flights)).map formatRow).length =
        Nat.min 10 (faresOf origin flights).length ∧
    (∀ flight, formatRow flight ≠ "") ∧
    formatMessage cfg rt flights =
      "✈️ <b>НАЙДЕНЫ ДЕШЁВЫЕ БИЛЕТЫ!</b>\n\n" ++
        String.join ((groupOrder rt flights).map (fun o =>
          formatGroupHeader cfg o ++
            String.join ((renderedFlights rt (faresOf o flights)).map formatRow) ++ "\n")) ++
        "📊 <b>Информация:</b>\n" ++ "   • 🎫 - ссылка на покупку\n" := by
  have hlen : (renderedFlights rt (faresOf origin flights)).length =
      Nat.min 10 (faresOf origin flights).length := by
    rw [renderedFlights_eq rt, List.length_take, (hrt.sort_perm _ _).length_eq]
  refine ⟨hlen, renderedFlights_prices rt hrt _, ?_, ?_,
    flightsByOrigin_group flights origin, ?_, ?_, ?_, ?_⟩
  · rw [reportRows_eq, filter_flatMap_groups origin _ (groupOrder rt flights)
      ((hrt.range_perm _).nodup_iff.mpr (flightsByOrigin_keys_nodup flights))
      (fun o _ => renderedFlights_origin rt hrt o flights)]
    by_cases h : origin ∈ groupOrder rt flights
    · simp [h]
    · have hnil : faresOf origin flights = [] := by
        rw [mem_groupOrder rt hrt] at h
        exact List.filter_eq_nil_iff.mpr (fun f hf => by
          simpa using fun hfo => h ⟨f, hf, hfo⟩)
      simp [h, hnil, renderedFlights_nil rt hrt]
  · unfold formatMessage
    simp only [flightsByOrigin_group]
    rw [foldl_append_eq_join]
  · unfold formatGroup
    rw [foldl_append_eq_join]
  · rw [List.length_map, hlen]
  · intro flight h
    have h1 := congrArg String.data h
    have h2 : ("<code>" : String).data = ['<', 'c', 'o', 'd', 'e', '>'] := rfl
    simp [formatRow, String.data_append, h2] at h1
  · unfold formatMessage formatGroup
    simp only [flightsByOrigin_group, foldl_append_eq_join]

/-- Witness for C6: of the twelve OVB fares priced 1000 to 12000, ten are
rendered, with prices 1000 to 10000; the text of the group is the header and
the ten rows of these fares; the fares at 11000 and 12000 have no row. -/
theorem group_rows_are_ten_cheapest_witness :
    (faresOf "OVB" twelveFares).length = 12 ∧
    (renderedFlights exampleRuntime (faresOf "OVB" twelveFares)).length = 10 ∧
    (reportRows exampleRuntime twelveFares).map (fun f => f.Price) =
      [1000, 2000, 3000, 4000, 5000, 6000, 7000, 8000, 9000, 10000] ∧
    formatGroup exampleConfig exampleRuntime "OVB" (faresOf "OVB" twelveFares) =
      formatGroupHeader exampleConfig "OVB" ++
        String.join ((renderedFlights exampleRuntime (faresOf "OVB" twelveFares)).map formatRow) ++
        "\n" ∧
    ((renderedFlights exampleRuntime (faresOf "OVB" twelveFares)).map formatRow).length = 10 :=
  ⟨by decide,
   (group_rows_are_ten_cheapest exampleConfig exampleRuntime exampleRuntime_lawful
     twelveFares "OVB").1,
   by decide,
   (group_rows_are_ten_cheapest exampleConfig exampleRuntime exampleRuntime_lawful
     twelveFares "OVB").2.2.2.2.2.1,
   (group_rows_are_ten_cheapest exampleConfig exampleRuntime exampleRuntime_lawful
     twelveFares "OVB").2.2.2.2.2.2.1⟩

/-! ## The airport directory -/

theorem containsRunes_iff (s sub : List Char) : containsRunes s sub = true ↔ sub <:+: s := by
  induction s with
  | nil =>
    cases sub with
    | nil => simp [containsRunes]
    | cons c sub => simp [containsRunes]
  | cons c s ih =>
    simp only [containsRunes, Bool.or_eq_true, List.isPrefixOf_iff_prefix, ih,
      List.infix_cons_iff]

theorem stringsContains_iff (s sub : String) :
    stringsContains s sub = true ↔ sub.data <:+: s.data :=
  containsRunes_iff s.data sub.data

theorem CityAirports_keys_nodup : (CityAirports.map Prod.fst).Nodup := by decide

theorem mapLookup_eq_some_mem {β : Type} (m : List (String × β)) (k : String) (v : β)
    (h : mapLookup m k = some v) : (k, v) ∈ m := by
  induction m with
  | nil => simp [mapLookup] at h
  | cons e m ih =>
    obtain ⟨k1, v1⟩ := e
    unfold mapLookup at h
    by_cases hk : k1 = k
    · simp only [hk, if_true, Option.some.injEq] at h
      simp [hk, h]
    · simp only [hk, if_false] at h
      exact List.mem_cons_of_mem _ (ih h)

theorem mapLookup_of_mem {β : Type} (m : List (String × β)) (hm : (m.map Prod.fst).Nodup)
    (k : String) (v : β) (h : (k, v) ∈ m) : mapLookup m k = some v := by
  induction m with
  | nil => simp at h
  | cons e m ih =>
    obtain ⟨k1, v1⟩ := e
    simp only [List.map_cons, List.nodup_cons] at hm
    unfold mapLookup
    rcases List.mem_cons.mp h with h1 | h1
    · simp only [Prod.mk.injEq] at h1
      simp [h1.1, h1.2]
    · have hne : ¬ k1 = k := by
        intro hk
        exact hm.1 (hk ▸ List.mem_map_of_mem Prod.fst h1)
      simp only [hne, if_false]
      exact ih hm.2 h1

theorem mapLookup_eq_none_iff {β : Type} (m : List (String × β)) (k : String) :
    mapLookup m k = none ↔ k ∉ m.map Prod.fst := by
  induction m with
  | nil => simp [mapLookup]
  | cons e m ih =>
    obtain ⟨k1, v1⟩ := e
    unfold mapLookup
    by_cases hk : k1 = k
    · simp [hk]
    · have hne : ¬ k = k1 := fun h => hk h.symm
      simp [hk, hne, ih]

theorem partialMatch_some (n : String) (order : List (String × List String))
    (k : String) (codes : List String) (h : partialMatch n order = some (k, codes)) :
    (k, codes) ∈ order ∧ (stringsContains n k = true ∨ stringsContains k n = true) := by
  induction order with
  | nil => simp [partialMatch] at h
  | cons e rest ih =>
    obtain ⟨k1, c1⟩ := e
    unfold partialMatch at h
    by_cases hm : (stringsContains n k1 || stringsContains k1 n) = true
    · simp only [hm, if_true, Option.some.injEq, Prod.mk.injEq] at h
      obtain ⟨rfl, rfl⟩ := h
      exact ⟨List.mem_cons_self _ _, by simpa using hm⟩
    · simp only [hm, if_false] at h
      exact ⟨List.mem_cons_of_mem _ (ih h).1, (ih h).2⟩

theorem partialMatch_none_iff (n : String) (order : List (String × List String)) :
    partialMatch n order = none ↔
      ∀ e ∈ order, stringsContains n e.1 = false ∧ stringsContains e.1 n = false := by
  induction order with
  | nil => simp [partialMatch]
  | cons e rest ih =>
    obtain ⟨k1, c1⟩ := e
    unfold partialMatch
    by_cases hm : (stringsContains n k1 || stringsContains k1 n) = true
    · simp only [hm, if_true, List.mem_cons, forall_eq_or_imp]
      constructor
      · intro h; cases h
      · rintro ⟨⟨h1, h2⟩, _⟩
        simp [h1, h2] at hm
    · simp only [hm, if_false, ih, List.mem_cons, forall_eq_or_imp]
      have : stringsContains n k1 = false ∧ stringsContains k1 n = false := by
        simpa using hm
      tauto

theorem FindAirportCode_exact (order : List (String × List String)) (s : String)
    (codes : List String) (h : mapLookup CityAirports (normalizeCity s) = some codes) :
    FindAirportCode order s = (some codes, getCityName (firstCode codes)) := by
  simp [FindAirportCode, h]

theorem FindAirportCode_fallback (order : List (String × List String)) (s : String)
    (h : mapLookup CityAirports (normalizeCity s) = none) :
    FindAirportCode order s =
      match partialMatch (normalizeCity s) order with
      | some (_, codes) => (some codes, getCityName (firstCode codes))
      | none => (none, "") := by
  simp [FindAirportCode, h]

/-- C7: for every entry `(k, codes)` of `CityAirports` and every input whose
lower-cased, trimmed form is `k`, `FindAirportCode` returns `codes` and the
display name of its first code, whatever order `range` takes over the table
(the order is not even consulted), also when other keys contain `k` or are
contained in it. -/
theorem exact_key_resolves_to_its_entry (order : List (String × List String)) (s k : String)
    (codes : List String) (hk : (k, codes) ∈ CityAirports) (hs : normalizeCity s = k) :
    FindAirportCode order s = (some codes, getCityName (firstCode codes)) :=
  FindAirportCode_exact order s codes
    (hs ▸ mapLookup_of_mem CityAirports CityAirports_keys_nodup k codes hk)

/-- Witness for C7: " Бангкок " normalises to the key "бангкок" and resolves to
`[BKK]` with display name "Бангкок", here with the table visited in reverse. -/
theorem exact_key_resolves_to_its_entry_witness :
    ("бангкок", ["BKK"]) ∈ CityAirports ∧ normalizeCity " Бангкок " = "бангкок" ∧
    FindAirportCode CityAirports.reverse " Бангкок " = (some ["BKK"], "Бангкок") :=
  ⟨by decide, by decide,
   exact_key_resolves_to_its_entry CityAirports.reverse " Бангкок " "бангкок" ["BKK"]
     (by decide) (by decide)⟩

/-- C8: with `n` the lower-cased, trimmed input and the table visited in any
order, `FindAirportCode` returns `nil, ""` exactly when `n` is not a key, no
key occurs inside `n` and `n` occurs inside no key; and when `n` is not a key
and codes are returned, they are the codes of an entry whose key occurs inside
`n` or contains `n`, returned with the display name of their first code. -/
theorem not_found_iff_no_exact_and_no_substring (order : List (String × List String))
    (horder : order.Perm CityAirports) (s : String) :
    (FindAirportCode order s = (none, "") ↔
      normalizeCity s ∉ CityAirports.map Prod.fst ∧
      ∀ k ∈ CityAirports.map Prod.fst,
        ¬ k.data <:+: (normalizeCity s).data ∧ ¬ (normalizeCity s).data <:+: k.data) ∧
    (normalizeCity s ∉ CityAirports.map Prod.fst →
      ∀ codes name, FindAirportCode order s = (some codes, name) →
        ∃ k, (k, codes) ∈ CityAirports ∧
          (k.data <:+: (normalizeCity s).data ∨ (normalizeCity s).data <:+: k.data) ∧
          name = getCityName (firstCode codes)) := by
  constructor
  · constructor
    · intro h
      cases hl : mapLookup CityAirports (normalizeCity s) with
      | some codes => simp [FindAirportCode_exact order s codes hl] at h
      | none =>
        refine ⟨(mapLookup_eq_none_iff _ _).mp hl, ?_⟩
        rw [FindAirportCode_fallback order s hl] at h
        cases hp : partialMatch (normalizeCity s) order with
        | some e => simp [hp] at h
        | none =>
          intro k hk
          obtain ⟨e, he, rfl⟩ := List.mem_map.mp hk
          have := (partialMatch_none_iff _ _).mp hp e (horder.mem_iff.mpr he)
          rw [← stringsContains_iff, ← stringsContains_iff]
          simp [this.1, this.2]
    · rintro ⟨hkey, hsub⟩
      have hl := (mapLookup_eq_none_iff _ _).mpr hkey
      rw [FindAirportCode_fallback order s hl]
      have hp : partialMatch (normalizeCity s) order = none := by
        rw [partialMatch_none_iff]
        intro e he
        have := hsub e.1 (List.mem_map_of_mem Prod.fst (horder.mem_iff.mp he))
        rw [← stringsContains_iff, ← stringsContains_iff] at this
        simpa using this
      simp [hp]
  · intro hkey codes name h
    have hl := (mapLookup_eq_none_iff _ _).mpr hkey
    rw [FindAirportCode_fallback order s hl] at h
    cases hp : partialMatch (normalizeCity s) order with
    | none => simp [hp] at h
    | some e =>
      obtain ⟨k, c⟩ := e
      simp only [hp, Prod.mk.injEq, Option.some.injEq] at h
      obtain ⟨rfl, rfl⟩ := h
      obtain ⟨hmem, hmatch⟩ := partialMatch_some _ _ _ _ hp
      refine ⟨k, horder.mem_iff.mp hmem, ?_, rfl⟩
      rw [← stringsContains_iff, ← stringsContains_iff]
      exact hmatch

/-- Witness for C8: "атлантида" is not found with the table visited in source
order, and "моск", which is no key, resolves to the codes of the entry "москв"
whose key contains it. -/
theorem not_found_iff_no_exact_and_no_substring_witness :
    FindAirportCode CityAirports "атлантида" = (none, "") ∧
    (normalizeCity "атлантида" ∉ CityAirports.map Prod.fst ∧
      ∀ k ∈ CityAirports.map Prod.fst,
        ¬ k.data <:+: (normalizeCity "атлантида").data ∧
        ¬ (normalizeCity "атлантида").data <:+: k.data) ∧
    ∃ k, (k, ["SVO", "DME", "VKO"]) ∈ CityAirports ∧
      (k.data <:+: (normalizeCity "моск").data ∨ (normalizeCity "моск").data <:+: k.data) ∧
      "Москва (Шереметьево)" = getCityName (firstCode ["SVO", "DME", "VKO"]) :=
  ⟨by decide,
   (not_found_iff_no_exact_and_no_substring CityAirports (List.Perm.refl _) "атлантида").1.mp
     (by decide),
   (not_found_iff_no_exact_and_no_substring CityAirports (List.Perm.refl _) "моск").2
     (by decide) ["SVO", "DME", "VKO"] "Москва (Шереметьево)" (by decide)⟩

theorem FindOriginAirportCode_eq (s : String) :
    FindOriginAirportCode s =
      match mapLookup CityAirports (normalizeCity s) with
      | some codes => (some codes, getCityName (firstCode codes))
      | none => (none, "") := rfl

theorem mosk_matches_only_moscow :
    ∀ e ∈ CityAirports,
      (stringsContains "моск" e.1 = true ∨ stringsContains e.1 "моск" = true) →
        e.2 = ["SVO", "DME", "VKO"] := by
  decide

/-- C9: `FindOriginAirportCode` does the exact-key step only: it returns codes
exactly when the lower-cased, trimmed input is a key of `CityAirports`, and
then the codes of that key with the display name of the first; otherwise it
returns `nil, ""`. For "моск", which `FindAirportCode` resolves to
`[SVO, DME, VKO]` under every visiting order, it returns `nil, ""`. -/
theorem origin_resolution_is_exact_only :
    (∀ s : String,
      ((∃ codes name, FindOriginAirportCode s = (some codes, name)) ↔
        normalizeCity s ∈ CityAirports.map Prod.fst) ∧
      (∀ codes, (normalizeCity s, codes) ∈ CityAirports →
        FindOriginAirportCode s = (some codes, getCityName (firstCode codes))) ∧
      (normalizeCity s ∉ CityAirports.map Prod.fst → FindOriginAirportCode s = (none, ""))) ∧
    (∀ order : List (String × List String), order.Perm CityAirports →
      FindAirportCode order "моск" = (some ["SVO", "DME", "VKO"], "Москва (Шереметьево)")) ∧
    FindOriginAirportCode "моск" = (none, "") := by
  refine ⟨fun s => ⟨?_, ?_, ?_⟩, ?_, by decide⟩
  · rw [FindOriginAirportCode_eq]
    cases hl : mapLookup CityAirports (normalizeCity s) with
    | none => simpa using (mapLookup_eq_none_iff _ _).mp hl
    | some codes =>
      have hmem := List.mem_map_of_mem Prod.fst (mapLookup_eq_some_mem _ _ _ hl)
      simpa using hmem
  · intro codes hmem
    rw [FindOriginAirportCode_eq,
      mapLookup_of_mem CityAirports CityAirports_keys_nodup _ _ hmem]
  · intro hkey
    rw [FindOriginAirportCode_eq, (mapLookup_eq_none_iff _ _).mpr hkey]
  · intro order horder
    have hl : mapLookup CityAirports (normalizeCity "моск") = none := by decide
    have hn : normalizeCity "моск" = "моск" := by decide
    rw [FindAirportCode_fallback order "моск" hl, hn]
    cases hp : partialMatch "моск" order with
    | none =>
      have := (partialMatch_none_iff _ _).mp hp ("москв", ["SVO", "DME", "VKO"])
        (horder.mem_iff.mpr (by decide))
      exact absurd this.2 (by decide)
    | some e =>
      obtain ⟨k, c⟩ := e
      obtain ⟨hmem, hmatch⟩ := partialMatch_some _ _ _ _ hp
      have hc : c = ["SVO", "DME", "VKO"] :=
        mosk_matches_only_moscow (k, c) (horder.mem_iff.mp hmem) hmatch
      subst hc
      show (some ["SVO", "DME", "VKO"], getCityName (firstCode ["SVO", "DME", "VKO"])) =
        (some ["SVO", "DME", "VKO"], "Москва (Шереметьево)")
      decide

/-- Witness for C9: "Москва" normalises to a key and resolves as an origin to
that key's codes; "моск" resolves through `FindAirportCode` with the table
visited in reverse. -/
theorem origin_resolution_is_exact_only_witness :
    FindOriginAirportCode "Москва" = (some ["SVO", "DME", "VKO"], "Москва (Шереметьево)") ∧
    FindAirportCode CityAirports.reverse "моск" =
      (some ["SVO", "DME", "VKO"], "Москва (Шереметьево)") :=
  ⟨(origin_resolution_is_exact_only.1 "Москва").2.1 ["SVO", "DME", "VKO"] (by decide),
   origin_resolution_is_exact_only.2.1 CityAirports.reverse (List.reverse_perm _)⟩

/-- C10: when `FindAirportCode` returns nil codes for the city text,
`setDestinationByCityName` returns false and the configuration is the one
before the call; when `FindOriginAirportCode` returns nil codes, `setOrigin`
returns false and the configuration is the one before the call. -/
theorem unresolved_city_leaves_config_unchanged (order : List (String × List String))
    (b : Bot) (chatID : Int) (cityName : String) (monthsToSearch : Int) :
    ((FindAirportCode order cityName).1 = none →
      (setDestinationByCityName order b chatID cityName monthsToSearch).1 = false ∧
      (setDestinationByCityName order b chatID cityName monthsToSearch).2.config = b.config) ∧
    ((FindOriginAirportCode cityName).1 = none →
      (setOrigin b chatID cityName).1 = false ∧
      (setOrigin b chatID cityName).2.config = b.config) := by
  constructor
  · intro h
    unfold setDestinationByCityName
    rcases hfa : FindAirportCode order cityName with ⟨_ | codes, name⟩
    · exact ⟨rfl, rfl⟩
    · simp [hfa] at h
  · intro h
    unfold setOrigin
    rcases hfa : FindOriginAirportCode cityName with ⟨_ | codes, name⟩
    · exact ⟨rfl, rfl⟩
    · simp [hfa] at h

/-- Witness for C10: "атлантида" is found by neither resolver; both commands
return false and the example configuration is unchanged. -/
theorem unresolved_city_leaves_config_unchanged_witness :
    ((setDestinationByCityName CityAirports exampleBot 7 "атлантида" 12).1 = false ∧
      (setDestinationByCityName CityAirports exampleBot 7 "атлантида" 12).2.config =
        exampleConfig) ∧
    ((setOrigin exampleBot 7 "атлантида").1 = false ∧
      (setOrigin exampleBot 7 "атлантида").2.config = exampleConfig) :=
  ⟨(unresolved_city_leaves_config_unchanged CityAirports exampleBot 7 "атлантида" 12).1
     (by decide),
   (unresolved_city_leaves_config_unchanged CityAirports exampleBot 7 "атлантида" 12).2
     (by decide)⟩

/-! ## Further claims on the airport directory -/

theorem FindAirportCode_none_of_no_match (order : List (String × List String))
    (horder : order.Perm CityAirports) (s : String)
    (hkey : mapLookup CityAirports (normalizeCity s) = none)
    (hno : ∀ e ∈ CityAirports,
      stringsContains (normalizeCity s) e.1 = false ∧
      stringsContains e.1 (normalizeCity s) = false) :
    FindAirportCode order s = (none, "") := by
  rw [FindAirportCode_fallback order s hkey]
  have hp : partialMatch (normalizeCity s) order = none :=
    (partialMatch_none_iff _ _).mpr (fun e he => hno e (horder.mem_iff.mp he))
  simp [hp]

theorem FindAirportCode_of_unique_match (order : List (String × List String))
    (horder : order.Perm CityAirports) (s : String) (codes : List String)
    (hkey : mapLookup CityAirports (normalizeCity s) = none)
    (hsome : ∃ e ∈ CityAirports,
      stringsContains (normalizeCity s) e.1 = true ∨
      stringsContains e.1 (normalizeCity s) = true)
    (hall : ∀ e ∈ CityAirports,
      (stringsContains (normalizeCity s) e.1 = true ∨
        stringsContains e.1 (normalizeCity s) = true) → e.2 = codes) :
    FindAirportCode order s = (some codes, getCityName (firstCode codes)) := by
  rw [FindAirportCode_fallback order s hkey]
  cases hp : partialMatch (normalizeCity s) order with
  | none =>
    obtain ⟨e, he, hm⟩ := hsome
    have := (partialMatch_none_iff _ _).mp hp e (horder.mem_iff.mpr he)
    rcases hm with hm | hm
    · simp [this.1] at hm
    · simp [this.2] at hm
  | some e =>
    obtain ⟨k, c⟩ := e
    obtain ⟨hmem, hmatch⟩ := partialMatch_some _ _ _ _ hp
    have hc : c = codes := hall (k, c) (horder.mem_iff.mp hmem) hmatch
    subst hc
    rfl

/-- C11: under every visiting order of the table, `FindAirportCode("токио")`
returns `nil, ""`: "токио" is no key, the key "той" does not occur in it and it
occurs in no key. The entry `"той": [NRT, HND]` is reached by the input "той"
only through the exact lookup, while the sibling stem "дел" does resolve
"дели" to `[DEL]` through the fallback. -/
theorem tokyo_is_not_resolved :
    (∀ order : List (String × List String), order.Perm CityAirports →
      FindAirportCode order "токио" = (none, "")) ∧
    stringsContains "токио" "той" = false ∧
    mapLookup CityAirports "той" = some ["NRT", "HND"] ∧
    (∀ order : List (String × List String), order.Perm CityAirports →
      FindAirportCode order "дели" = (some ["DEL"], "Дели")) := by
  refine ⟨fun order horder => ?_, by decide, by decide, fun order horder => ?_⟩
  · exact FindAirportCode_none_of_no_match order horder "токио" (by decide) (by decide)
  · exact FindAirportCode_of_unique_match order horder "дели" ["DEL"] (by decide)
      ⟨("дел", ["DEL"]), by decide, by decide⟩ (by decide)

/-- Witness for C11: with the table visited in source order and in reverse,
"токио" is not found. -/
theorem tokyo_is_not_resolved_witness :
    FindAirportCode CityAirports "токио" = (none, "") ∧
    FindAirportCode CityAirports.reverse "токио" = (none, "") :=
  ⟨tokyo_is_not_resolved.1 CityAirports (List.Perm.refl _),
   tokyo_is_not_resolved.1 CityAirports.reverse (List.reverse_perm _)⟩

/-- C14: after `SetOriginIATA(c)` the origin list is not empty and contains
`c`, and a list without repeated codes stays without repeated codes. -/
theorem setOrigin_keeps_origin_list_wellformed (cfg : AppConfig) (c : String) :
    (SetOriginIATA cfg c).OriginIATA ≠ [] ∧
    c ∈ (SetOriginIATA cfg c).OriginIATA ∧
    (cfg.OriginIATA.Nodup → (SetOriginIATA cfg c).OriginIATA.Nodup) := by
  unfold SetOriginIATA
  by_cases h : cfg.OriginIATA.any (fun existing => decide (existing = c)) = true
  · have hmem : c ∈ cfg.OriginIATA := by
      obtain ⟨x, hx, hxc⟩ := List.any_eq_true.mp h
      have : x = c := by simpa using hxc
      exact this ▸ hx
    simp only [h, if_true]
    exact ⟨List.ne_nil_of_mem hmem, hmem, fun hnd => hnd⟩
  · simp only [h]
    simp

/-- Witness for C14: on the origins `[OVB, BAX]`, which have no repetition,
setting the configured BAX leaves the list as it is and setting SVO makes it
`[SVO]`. -/
theorem setOrigin_keeps_origin_list_wellformed_witness :
    (SetOriginIATA exampleConfig "BAX").OriginIATA = ["OVB", "BAX"] ∧
    (SetOriginIATA exampleConfig "SVO").OriginIATA = ["SVO"] ∧
    (SetOriginIATA exampleConfig "BAX").OriginIATA.Nodup ∧
    (SetOriginIATA exampleConfig "SVO").OriginIATA.Nodup :=
  ⟨by decide, by decide,
   (setOrigin_keeps_origin_list_wellformed exampleConfig "BAX").2.2 (by decide),
   (setOrigin_keeps_origin_list_wellformed exampleConfig "SVO").2.2 (by decide)⟩

/-- C20: the fallback of `FindAirportCode` depends on the visiting order: "ва"
is no key, and with the table visited in source order it resolves to `[WAW]`
(through "варшав") while in reverse order it resolves to `[SVO, DME, VKO]`
(through "москва"). -/
theorem fallback_depends_on_order :
    ∃ (s : String) (order1 order2 : List (String × List String)),
      order1.Perm CityAirports ∧ order2.Perm CityAirports ∧
      mapLookup CityAirports (normalizeCity s) = none ∧
      (FindAirportCode order1 s).1 ≠ (FindAirportCode order2 s).1 ∧
      FindAirportCode order1 s = (some ["WAW"], "Варшава") ∧
      FindAirportCode order2 s = (some ["SVO", "DME", "VKO"], "Москва (Шереметьево)") :=
  ⟨"ва", CityAirports, CityAirports.reverse, List.Perm.refl _, List.reverse_perm _,
    by decide, by decide, by decide, by decide⟩


set_option maxRecDepth 100000 in
theorem codes_match_no_key :
    ∀ c ∈ CityAirports.flatMap Prod.snd,
      mapLookup CityAirports (normalizeCity c) = none ∧
      ∀ e ∈ CityAirports,
        stringsContains (normalizeCity c) e.1 = false ∧
        stringsContains e.1 (normalizeCity c) = false := by
  decide

/-- C18: under every visiting order of the table, `FindAirportCode` returns
`nil, ""` for every airport code that occurs in `CityAirports`, "BKK" among
them: the input is lower-cased and compared with the city keys only. So
`setDestinationByCityName` with "BKK" returns false and leaves the
configuration, `DestinationIATA` included, as it was. -/
theorem airport_code_is_not_resolved :
    (∀ order : List (String × List String), order.Perm CityAirports →
      ∀ c ∈ CityAirports.flatMap Prod.snd, FindAirportCode order c = (none, "")) ∧
    "BKK" ∈ CityAirports.flatMap Prod.snd ∧
    (∀ order : List (String × List String), order.Perm CityAirports →
      ∀ (b : Bot) (chatID monthsToSearch : Int),
        (setDestinationByCityName order b chatID "BKK" monthsToSearch).1 = false ∧
        (setDestinationByCityName order b chatID "BKK" monthsToSearch).2.config = b.config) := by
  have h1 : ∀ order : List (String × List String), order.Perm CityAirports →
      ∀ c ∈ CityAirports.flatMap Prod.snd, FindAirportCode order c = (none, "") :=
    fun order horder c hc =>
      FindAirportCode_none_of_no_match order horder c (codes_match_no_key c hc).1
        (codes_match_no_key c hc).2
  refine ⟨h1, by decide, fun order horder b chatID monthsToSearch => ?_⟩
  have h := h1 order horder "BKK" (by decide)
  unfold setDestinationByCityName
  rw [h]
  exact ⟨rfl, rfl⟩

/-- Witness for C18: with the table in source order, "BKK" is not found and
the destination of the example configuration stays DPS. -/
theorem airport_code_is_not_resolved_witness :
    FindAirportCode CityAirports "BKK" = (none, "") ∧
    (setDestinationByCityName CityAirports exampleBot 7 "BKK" 3).1 = false ∧
    (setDestinationByCityName CityAirports exampleBot 7 "BKK" 3).2.config.DestinationIATA =
      "DPS" :=
  ⟨airport_code_is_not_resolved.1 CityAirports (List.Perm.refl _) "BKK" (by decide),
   (airport_code_is_not_resolved.2.2 CityAirports (List.Perm.refl _) exampleBot 7 3).1,
   by decide⟩


/-! ## Repeated fares -/

theorem count_flatMap_eq {α : Type} (f : Flight) (l : List α) (g : α → List Flight) :
    (l.flatMap g).count f = (l.map (fun a => (g a).count f)).sum := by
  unfold List.flatMap
  rw [List.count_flatten, List.map_map]
  rfl

/-- C15 as stated fails: with the same record returned for both months of the
example configuration, the list `Search` accumulates holds the OVB Flight
twice. -/
theorem search_accumulates_duplicates :
    (collectFlights exampleConfig exampleRuntime repeatFetch World.start).1.count exampleFlight = 2 ∧
    ¬ (collectFlights exampleConfig exampleRuntime repeatFetch World.start).1.Nodup := by
  decide

/-- C15 amended: `Search` does not deduplicate. A Flight occurs in the list it
accumulates as many times as it occurs among the accepted records of all
fetches together, origin by origin and month by month; a record list given
twice is accepted twice; and the group `formatMessage` builds for the Flight's
origin holds it as many times as the accumulated list does. -/
theorem search_keeps_every_accepted_record (cfg : AppConfig) (rt : Runtime) (fetch : Fetch)
    (w : World) (f : Flight) :
    (collectFlights cfg rt fetch w).1.count f =
      (cfg.OriginIATA.enum.map (fun p =>
        ((List.range cfg.MonthsToSearch.toNat).map (fun j =>
          (fetchContribution cfg rt p.2
            (fetch (w.attempts + p.1 * cfg.MonthsToSearch.toNat + j) p.2 j)).count f)).sum)).sum ∧
    (∀ origin data,
      (appendAccepted cfg rt origin [] (data ++ data)).count f =
        2 * (appendAccepted cfg rt origin [] data).count f) ∧
    (∀ flights : List Flight,
      ((mapLookup (flightsByOrigin flights) f.Origin).getD []).count f = flights.count f) := by
  refine ⟨?_, ?_, ?_⟩
  · rw [collectFlights_eq]
    unfold expectedFlights
    rw [count_flatMap_eq]
    congr 1
    apply List.map_congr_left
    intro p _
    rw [count_flatMap_eq]
  · intro origin data
    simp only [appendAccepted_eq, List.nil_append, acceptedFlights, List.filter_append,
      List.filterMap_append, List.count_append]
    omega
  · intro flights
    rw [flightsByOrigin_group]
    unfold faresOf
    rw [List.count_filter]
    simp


/-! ## Claims on the command handlers -/

theorem Search_error_nil (cfg : AppConfig) (rt : Runtime) (fetch : Fetch) (w : World) :
    (Search cfg rt fetch w).1.2 = none := by
  by_cases h : (collectFlights cfg rt fetch w).1 = []
  · rw [Search_of_nil cfg rt fetch w h]
  · rw [Search_of_ne_nil cfg rt fetch w h]

theorem handleSearch_three_fields (rt : Runtime) (fetch : Fetch)
    (order : List (String × List String)) (b : Bot) (w : World) (chatID : Int) (text : String)
    (a0 a1 a2 : String) (rest : List String)
    (h : stringsFields text = a0 :: a1 :: a2 :: rest) :
    (handleSearch rt fetch order b w chatID text).1.config =
      (setDestinationByCityName order b chatID (stringsToUpper a1) (strconvAtoi a2).1).2.config := by
  unfold handleSearch
  simp only [h, List.length_cons, List.getD_cons_succ, List.getD_cons_zero]
  have h2 : rest.length + 1 + 1 + 1 ≥ 2 := by omega
  have h3 : rest.length + 1 + 1 + 1 ≥ 3 := by omega
  simp only [h2, h3, if_true]
  split
  · rfl
  · simp only [Search_error_nil]

theorem setDestinationByCityName_found (order : List (String × List String)) (b : Bot)
    (chatID : Int) (cityName : String) (monthsToSearch : Int) (codes : List String)
    (h : mapLookup CityAirports (normalizeCity cityName) = some codes) :
    (setDestinationByCityName order b chatID cityName monthsToSearch).2.config =
      SetDestination (SetMonthsToSearch b.config monthsToSearch) (firstCode codes) := by
  unfold setDestinationByCityName
  rw [FindAirportCode_exact order cityName codes h]

theorem setDestinationByCityName_not_found (order : List (String × List String)) (b : Bot)
    (chatID : Int) (cityName : String) (monthsToSearch : Int)
    (h : (FindAirportCode order cityName).1 = none) :
    (setDestinationByCityName order b chatID cityName monthsToSearch).1 = false ∧
    (setDestinationByCityName order b chatID cityName monthsToSearch).2.config = b.config := by
  unfold setDestinationByCityName
  rcases hfa : FindAirportCode order cityName with ⟨_ | codes, name⟩
  · exact ⟨rfl, rfl⟩
  · simp [hfa] at h

theorem setDestinationByCityName_months (order : List (String × List String)) (b : Bot)
    (chatID : Int) (cityName : String) (monthsToSearch : Int)
    (h : (FindAirportCode order cityName).1 ≠ none) :
    (setDestinationByCityName order b chatID cityName monthsToSearch).1 = true ∧
    (setDestinationByCityName order b chatID cityName monthsToSearch).2.config.MonthsToSearch =
      monthsToSearch := by
  unfold setDestinationByCityName
  rcases hfa : FindAirportCode order cityName with ⟨_ | codes, name⟩
  · simp [hfa] at h
  · exact ⟨rfl, rfl⟩

theorem handleSearch_config (rt : Runtime) (fetch : Fetch)
    (order : List (String × List String)) (b : Bot) (w : World) (chatID : Int) (text : String) :
    (handleSearch rt fetch order b w chatID text).1.config =
      if (stringsFields text).length ≥ 3 then
        (setDestinationByCityName order b chatID (stringsToUpper ((stringsFields text).getD 1 ""))
          (strconvAtoi ((stringsFields text).getD 2 "")).1).2.config
      else if (stringsFields text).length ≥ 2 then
        (setDestinationByCityName order b chatID (stringsToUpper ((stringsFields text).getD 1 ""))
          b.config.MonthsToSearch).2.config
      else b.config := by
  unfold handleSearch
  by_cases h3 : (stringsFields text).length ≥ 3
  · have h2 : (stringsFields text).length ≥ 2 := by omega
    simp only [h2, h3, if_true]
    split
    · rfl
    · simp only [Search_error_nil]
  · by_cases h2 : (stringsFields text).length ≥ 2
    · simp only [h2, h3, if_true, if_false, Bool.not_true, Bool.false_eq_true,
        Search_error_nil]
    · simp only [h2, h3, if_false, Bool.not_true, Bool.false_eq_true, Search_error_nil]

/-- The error of `strconv.Atoi` is tested by an empty `if` in `handleSearch`:
for the text "/search бангкок abc" the third field does not parse,
`strconv.Atoi` returns 0 with an error, and `MonthsToSearch` becomes 0; the
sibling `getEnvInt` keeps its default when `strconv.Atoi` fails. -/
theorem search_command_ignores_atoi_error (rt : Runtime) (fetch : Fetch)
    (order : List (String × List String)) (b : Bot) (w : World) (chatID : Int) :
    (handleSearch rt fetch order b w chatID "/search бангкок abc").1.config.MonthsToSearch = 0 ∧
    strconvAtoi "abc" = (0, true) ∧
    getEnvInt "abc" 3 = 3 := by
  refine ⟨?_, by decide, by decide⟩
  rw [handleSearch_three_fields rt fetch order b w chatID _ "/search" "бангкок" "abc" []
      (by decide),
    setDestinationByCityName_found order b chatID _ _ ["BKK"] (by decide)]
  rfl

/-- C13 as stated fails: the example configuration has horizon 2, and after
`handleSearch` on "/search бангкок 0" the horizon is 0. -/
theorem search_command_zero_horizon :
    0 < exampleBot.config.MonthsToSearch ∧
    ¬ 0 < (handleSearch exampleRuntime exampleFetch CityAirports exampleBot World.start 7
      "/search бангкок 0").1.config.MonthsToSearch := by
  decide

/-- C13 amended: `handleSearch` does not check the sign of the horizon. When
the text has fewer than three fields, or has three and its second field
resolves to no city, `MonthsToSearch` is what it was before; when it has at
least three fields, the second resolves to a city and `strconv.Atoi` accepts
the third as the integer `m`, `MonthsToSearch` afterwards is `m`, so it is
positive exactly when `m` is. -/
theorem search_command_sets_horizon_to_third_field (rt : Runtime) (fetch : Fetch)
    (order : List (String × List String)) (b : Bot) (w : World) (chatID : Int) (text : String) :
    ((stringsFields text).length < 3 →
      (handleSearch rt fetch order b w chatID text).1.config.MonthsToSearch =
        b.config.MonthsToSearch) ∧
    (∀ a0 a1 a2 rest, stringsFields text = a0 :: a1 :: a2 :: rest →
      ((FindAirportCode order (stringsToUpper a1)).1 = none →
        (handleSearch rt fetch order b w chatID text).1.config = b.config) ∧
      (∀ m : Int, (FindAirportCode order (stringsToUpper a1)).1 ≠ none →
        strconvAtoi a2 = (m, false) →
        (handleSearch rt fetch order b w chatID text).1.config.MonthsToSearch = m ∧
        (0 < (handleSearch rt fetch order b w chatID text).1.config.MonthsToSearch ↔ 0 < m))) := by
  constructor
  · intro hlt
    rw [handleSearch_config]
    have h3 : ¬ (stringsFields text).length ≥ 3 := by omega
    simp only [h3, if_false]
    split
    · cases hf : (FindAirportCode order (stringsToUpper ((stringsFields text).getD 1 ""))).1 with
      | none => rw [(setDestinationByCityName_not_found order b chatID _ _ hf).2]
      | some codes =>
        exact (setDestinationByCityName_months order b chatID _ _
          (fun hcontra => by rw [hf] at hcontra; cases hcontra)).2
    · rfl
  · intro a0 a1 a2 rest hargs
    rw [handleSearch_three_fields rt fetch order b w chatID text a0 a1 a2 rest hargs]
    refine ⟨fun hnone => (setDestinationByCityName_not_found order b chatID _ _ hnone).2,
      fun m hfound hm => ?_⟩
    have := (setDestinationByCityName_months order b chatID (stringsToUpper a1)
      (strconvAtoi a2).1 hfound).2
    have hm1 : (strconvAtoi a2).1 = m := by rw [hm]
    rw [this, hm1]
    exact ⟨rfl, Iff.rfl⟩

/-- Witness for C13: "/search бангкок 5" sets the horizon of the example
configuration to 5, and "/search бангкок" leaves it at 2. -/
theorem search_command_sets_horizon_to_third_field_witness :
    (handleSearch exampleRuntime exampleFetch CityAirports exampleBot World.start 7
      "/search бангкок 5").1.config.MonthsToSearch = 5 ∧
    (handleSearch exampleRuntime exampleFetch CityAirports exampleBot World.start 7
      "/search бангкок").1.config.MonthsToSearch = 2 :=
  ⟨((search_command_sets_horizon_to_third_field exampleRuntime exampleFetch CityAirports
      exampleBot World.start 7 "/search бангкок 5").2 "/search" "бангкок" "5" [] (by decide)).2 5
      (by decide) (by decide) |>.1,
   (search_command_sets_horizon_to_third_field exampleRuntime exampleFetch CityAirports
      exampleBot World.start 7 "/search бангкок").1 (by decide)⟩

theorem handleOrigin_of_two_fields (b : Bot) (chatID : Int) (text : String)
    (h : (stringsFields text).length ≥ 2) :
    handleOrigin b chatID text =
      some { b with sent := b.sent ++
        [(chatID, "❌ Укажите город вылета. Например: <code>/origin set москва</code>")] } := by
  unfold handleOrigin
  simp only [h, if_true]

theorem handleOrigin_of_short (b : Bot) (chatID : Int) (text : String)
    (h : (stringsFields text).length < 2) : handleOrigin b chatID text = none := by
  unfold handleOrigin sliceFrom
  have h1 : ¬ (stringsFields text).length ≥ 2 := by omega
  have h2 : ¬ 2 ≤ (stringsFields text).length := by omega
  simp only [h1, h2, if_false]

/-- C19: `handleOrigin` never calls `setOrigin`. For a text of two or more
fields, so also for "/origin set <city>", it sends the hint "Укажите город
вылета" and returns with the configuration as it was; for a text of fewer
than two fields the slice `args[2:]` is out of range and the handler panics.
Whenever it returns, the configuration is unchanged. -/
theorem origin_command_never_sets_origin (b : Bot) (chatID : Int) (text : String) :
    ((stringsFields text).length ≥ 3 →
      handleOrigin b chatID text =
        some { b with sent := b.sent ++
          [(chatID, "❌ Укажите город вылета. Например: <code>/origin set москва</code>")] }) ∧
    ((stringsFields text).length < 2 → handleOrigin b chatID text = none) ∧
    (∀ b1, handleOrigin b chatID text = some b1 → b1.config = b.config) := by
  refine ⟨fun h => handleOrigin_of_two_fields b chatID text (by omega),
    handleOrigin_of_short b chatID text, fun b1 hb => ?_⟩
  by_cases h : (stringsFields text).length ≥ 2
  · rw [handleOrigin_of_two_fields b chatID text h] at hb
    cases hb
    rfl
  · rw [handleOrigin_of_short b chatID text (by omega)] at hb
    cases hb

/-- Witness for C19: "/origin set москва" has three fields; `handleOrigin`
leaves the origins `[OVB, BAX]`, without SVO, although `setOrigin` called with
"москва" would make them `[SVO]`. -/
theorem origin_command_never_sets_origin_witness :
    stringsFields "/origin set москва" = ["/origin", "set", "москва"] ∧
    handleOrigin exampleBot 7 "/origin set москва" =
      some { exampleBot with sent :=
        [(7, "❌ Укажите город вылета. Например: <code>/origin set москва</code>")] } ∧
    (∀ b1, handleOrigin exampleBot 7 "/origin set москва" = some b1 →
      b1.config.OriginIATA = ["OVB", "BAX"]) ∧
    (setOrigin exampleBot 7 "москва").2.config.OriginIATA = ["SVO"] :=
  ⟨by decide,
   (origin_command_never_sets_origin exampleBot 7 "/origin set москва").1 (by decide),
   fun b1 hb =>
     ((origin_command_never_sets_origin exampleBot 7 "/origin set москва").2.2 b1 hb).symm ▸ rfl,
   by decide⟩


/-! ## Claims on the month strings and the columns -/

theorem daysIn_ge (year month : Nat) : 28 ≤ daysIn year month := by
  unfold daysIn
  split
  · split <;> omega
  · split <;> omega

theorem normalizeDay_of_le (fuel year month day : Nat) (h : day ≤ daysIn year month) :
    normalizeDay fuel year month day = { year := year, month := month, day := day } := by
  cases fuel with
  | zero => rfl
  | succ fuel =>
    unfold normalizeDay
    have : ¬ day > daysIn year month := by omega
    simp only [this, if_false]

theorem monthStr_of_early_day (now : CivilDate) (k : Nat) (h : now.day ≤ 28) :
    monthStr now k = calendarMonth now k := by
  unfold monthStr calendarMonth addMonths
  rw [normalizeDay_of_le _ _ _ _ (le_trans h (daysIn_ge _ _))]
  rfl

/-- C12: the month strings are not always distinct consecutive months. On
31 January 2024 with horizon 3 the loop queries "2024-01", "2024-03", "2024-03":
February is skipped and March is queried twice, because `AddDate(0, 1, 0)`
gives 31 February, which Go normalises to 2 March. When the current day of
the month is at most 28, the strings are the consecutive calendar months
beginning with the current one. -/
theorem month_strings_skip_and_repeat :
    monthStrings { year := 2024, month := 1, day := 31 } 3 = ["2024-01", "2024-03", "2024-03"] ∧
    addMonths { year := 2024, month := 1, day := 31 } 1 = { year := 2024, month := 3, day := 2 } ∧
    (List.range 3).map (calendarMonth { year := 2024, month := 1, day := 31 }) =
      ["2024-01", "2024-02", "2024-03"] ∧
    ¬ (monthStrings { year := 2024, month := 1, day := 31 } 3).Nodup ∧
    (∀ (now : CivilDate) (n : Nat), now.day ≤ 28 →
      monthStrings now n = (List.range n).map (calendarMonth now)) := by
  refine ⟨by decide, by decide, by decide, by decide, fun now n h => ?_⟩
  unfold monthStrings
  exact List.map_congr_left (fun k _ => monthStr_of_early_day now k h)

/-- Witness for C12: on 15 November 2024 the four month strings run from
November 2024 to February 2025. -/
theorem month_strings_skip_and_repeat_witness :
    monthStrings { year := 2024, month := 11, day := 15 } 4 =
        (List.range 4).map (calendarMonth { year := 2024, month := 11, day := 15 }) ∧
    (List.range 4).map (calendarMonth { year := 2024, month := 11, day := 15 }) =
      ["2024-11", "2024-12", "2025-01", "2025-02"] :=
  ⟨month_strings_skip_and_repeat.2.2.2.2 { year := 2024, month := 11, day := 15 } 4 (by decide),
   by decide⟩

theorem formatRow_eq (flight : Flight) :
    formatRow flight =
      "<code>" ++ rowText flight ++ "</code> " ++ "<a href=\x27" ++ flight.Link ++
        "\x27>🎫</a>\n" := by
  unfold formatRow rowText
  simp only [String.append_assoc]

theorem formatGroupHeader_eq (cfg : AppConfig) (origin : String) :
    formatGroupHeader cfg origin =
      "🛫 <b>" ++ getCityName origin ++ " → " ++ getCityName cfg.DestinationIATA ++ "</b>\n" ++
        "<code>" ++ columnHeader ++
        "--------------|---------|---------|---------|------\n" ++ "</code>" := rfl

/-- C17: the rows are not fixed-width. The column header has its separators at
rune positions 14, 24, 34 and 44, and so has a row whose duration renders in
seven runes (630 minutes, "10ч 30м"); but the row of the example fare (price
28000, duration 600, no transfer, all within the stated ranges) has them at
14, 24, 30 and 40, because the duration "10ч" is written without padding while
the price is padded to 6 and the transfer text to 7. -/
theorem duration_column_is_not_padded :
    (∀ flight, formatRow flight =
      "<code>" ++ rowText flight ++ "</code> " ++ "<a href=\x27" ++ flight.Link ++
        "\x27>🎫</a>\n") ∧
    (∀ cfg origin, formatGroupHeader cfg origin =
      "🛫 <b>" ++ getCityName origin ++ " → " ++ getCityName cfg.DestinationIATA ++ "</b>\n" ++
        "<code>" ++ columnHeader ++
        "--------------|---------|---------|---------|------\n" ++ "</code>") ∧
    separatorPositions columnHeader = [14, 24, 34, 44] ∧
    rowText exampleFlight = "10.03.2024 Вс |  28000₽ | 10ч |  прямой | S7" ∧
    separatorPositions (rowText exampleFlight) = [14, 24, 30, 40] ∧
    separatorPositions (rowText { exampleFlight with Duration := 630 }) = [14, 24, 34, 44] ∧
    (0 ≤ exampleFlight.Price ∧ exampleFlight.Price ≤ 999999 ∧
      0 ≤ exampleFlight.Duration ∧ exampleFlight.Duration ≤ 1440 ∧
      0 ≤ exampleFlight.Transfers ∧ exampleFlight.Transfers ≤ 9) :=
  ⟨formatRow_eq, formatGroupHeader_eq, by decide, by decide, by decide, by decide, by decide⟩


/-! ## Claims on `formatDuration` -/

theorem digitChar_spec : ∀ d, d < 10 →
    (Nat.digitChar d).isDigit = true ∧ (Nat.digitChar d).toNat - 48 = d := by
  decide

theorem toDigitsCore_append (fuel : Nat) :
    ∀ (n : Nat) (ds : List Char),
      Nat.toDigitsCore 10 fuel n ds = Nat.toDigitsCore 10 fuel n [] ++ ds := by
  induction fuel with
  | zero => intro n ds; simp [Nat.toDigitsCore]
  | succ fuel ih =>
    intro n ds
    simp only [Nat.toDigitsCore]
    by_cases h : n / 10 = 0
    · simp [h]
    · simp only [h, if_false]
      rw [ih (n / 10) (Nat.digitChar (n % 10) :: ds), ih (n / 10) [Nat.digitChar (n % 10)]]
      simp

theorem durationStep_digit (st : Nat × Nat) (d : Nat) (hd : d < 10) :
    durationStep st (Nat.digitChar d) = (st.1, 10 * st.2 + d) := by
  unfold durationStep
  rw [(digitChar_spec d hd).1, (digitChar_spec d hd).2]
  rfl

theorem foldl_durationStep_toDigitsCore (fuel : Nat) :
    ∀ (n h : Nat), n < fuel →
      (Nat.toDigitsCore 10 fuel n []).foldl durationStep (h, 0) = (h, n) := by
  induction fuel with
  | zero => intro n h hn; omega
  | succ fuel ih =>
    intro n h hn
    simp only [Nat.toDigitsCore]
    by_cases hz : n / 10 = 0
    · simp only [hz, if_true, List.foldl_cons, List.foldl_nil]
      rw [durationStep_digit _ _ (Nat.mod_lt _ (by decide))]
      have : n % 10 = n := Nat.mod_eq_of_lt (by omega)
      simp [this]
    · simp only [hz, if_false]
      rw [toDigitsCore_append, List.foldl_append, ih (n / 10) h (by omega)]
      simp only [List.foldl_cons, List.foldl_nil]
      rw [durationStep_digit _ _ (Nat.mod_lt _ (by decide))]
      have : 10 * (n / 10) + n % 10 = n := Nat.div_add_mod n 10
      simp [this]

theorem foldl_durationStep_toString (n h : Nat) :
    (toString n).data.foldl durationStep (h, 0) = (h, n) :=
  foldl_durationStep_toDigitsCore (n + 1) n h (Nat.lt_succ_self n)

theorem formatDuration_nat (k : Nat) :
    formatDuration (k : Int) =
      if 0 < k / 60 ∧ 0 < k % 60 then toString (k / 60) ++ "ч " ++ toString (k % 60) ++ "м"
      else if 0 < k / 60 then toString (k / 60) ++ "ч"
      else toString (k % 60) ++ "м" := by
  unfold formatDuration
  have h1 : (k : Int).tdiv 60 = ((k / 60 : Nat) : Int) := (Int.ofNat_tdiv k 60).symm
  have h2 : (k : Int).tmod 60 = ((k % 60 : Nat) : Int) := (Int.ofNat_tmod k 60).symm
  simp only [h1, h2, gt_iff_lt, Int.natCast_pos]
  rfl

theorem readDuration_formatDuration (k : Nat) : readDuration (formatDuration (k : Int)) = k := by
  rw [formatDuration_nat]
  have hk : 60 * (k / 60) + k % 60 = k := Nat.div_add_mod k 60
  have hch : durationStep (0, k / 60) 'ч' = (k / 60, 0) := by
    simp [durationStep, show 'ч'.isDigit = false by decide]
  have hsp : durationStep (k / 60, 0) ' ' = (k / 60, 0) := by
    simp [durationStep, show ' '.isDigit = false by decide]
  have hm : ∀ st : Nat × Nat, durationStep st 'м' = st := by
    intro st
    simp [durationStep, show 'м'.isDigit = false by decide]
  unfold readDuration
  split
  · simp only [String.data_append, List.foldl_append, foldl_durationStep_toString]
    have e1 : ("ч " : String).data = ['ч', ' '] := rfl
    have e2 : ("м" : String).data = ['м'] := rfl
    simp only [e1, e2, List.foldl_cons, List.foldl_nil, hch, hsp, foldl_durationStep_toString, hm]
    exact hk
  · split
    · rename_i h1 h2
      have hr : k % 60 = 0 := by
        by_contra hne
        exact h1 ⟨h2, Nat.pos_of_ne_zero hne⟩
      simp only [String.data_append, List.foldl_append, foldl_durationStep_toString]
      have e1 : ("ч" : String).data = ['ч'] := rfl
      simp only [e1, List.foldl_cons, List.foldl_nil, hch]
      omega
    · rename_i h1 h2
      have hq : k / 60 = 0 := Nat.eq_zero_of_not_pos h2
      simp only [String.data_append, List.foldl_append, foldl_durationStep_toString]
      have e2 : ("м" : String).data = ['м'] := rfl
      simp only [e2, List.foldl_cons, List.foldl_nil, hm]
      omega


theorem toString_natCast (n : Nat) : toString (n : Int) = toString n := rfl

/-- C16: for every duration `m ≥ 0`, with `h = m / 60` and `r = m % 60`,
`formatDuration m` is `<h>ч <r>м` when both are positive, `<h>ч` when only `h`
is, and `<r>м` when `h = 0`, so `0` renders as "0м"; `60 * h + r = m`, reading
the rendered text back (sixty times the number before `ч` plus the number
after it) gives `m`, and `formatDuration` is injective on durations `≥ 0`. -/
theorem formatDuration_renders_hours_and_minutes :
    (∀ m : Int, 0 ≤ m →
      (0 < m / 60 ∧ 0 < m % 60 →
        formatDuration m = toString (m / 60) ++ "ч " ++ toString (m % 60) ++ "м") ∧
      (0 < m / 60 ∧ m % 60 = 0 → formatDuration m = toString (m / 60) ++ "ч") ∧
      (m / 60 = 0 → formatDuration m = toString (m % 60) ++ "м") ∧
      60 * (m / 60) + m % 60 = m ∧
      (readDuration (formatDuration m) : Int) = m) ∧
    formatDuration 0 = "0м" ∧
    (∀ m n : Int, 0 ≤ m → 0 ≤ n → formatDuration m = formatDuration n → m = n) := by
  refine ⟨fun m hm => ?_, by decide, fun m n hm hn h => ?_⟩
  · obtain ⟨k, rfl⟩ := Int.eq_ofNat_of_zero_le hm
    have hq : ((k : Int) / 60) = ((k / 60 : Nat) : Int) := (Int.ofNat_ediv k 60).symm
    have hr : ((k : Int) % 60) = ((k % 60 : Nat) : Int) := (Int.ofNat_emod k 60).symm
    rw [hq, hr, readDuration_formatDuration, formatDuration_nat]
    simp only [toString_natCast, Int.natCast_pos, Int.natCast_eq_zero]
    refine ⟨fun h => by rw [if_pos h], fun h => ?_, fun h => ?_, ?_, trivial⟩
    · have h1 : ¬ (0 < k / 60 ∧ 0 < k % 60) := by omega
      rw [if_neg h1, if_pos h.1]
    · have h1 : ¬ (0 < k / 60 ∧ 0 < k % 60) := by omega
      have h2 : ¬ 0 < k / 60 := by omega
      rw [if_neg h1, if_neg h2]
    · have := Nat.div_add_mod k 60
      omega
  · obtain ⟨a, rfl⟩ := Int.eq_ofNat_of_zero_le hm
    obtain ⟨b, rfl⟩ := Int.eq_ofNat_of_zero_le hn
    have := congrArg readDuration h
    rw [readDuration_formatDuration, readDuration_formatDuration] at this
    exact congrArg Int.ofNat this

/-- Witness for C16: 630 minutes render as "10ч 30м", 600 as "10ч", 45 as
"45м", and two durations with the same rendering as 630 are equal. -/
theorem formatDuration_renders_hours_and_minutes_witness :
    formatDuration 630 = "10ч 30м" ∧ formatDuration 600 = "10ч" ∧ formatDuration 45 = "45м" ∧
    (630 : Int) = 10 * 60 + 30 :=
  ⟨((formatDuration_renders_hours_and_minutes.1 630 (by decide)).1 (by decide)).trans
     (by decide),
   ((formatDuration_renders_hours_and_minutes.1 600 (by decide)).2.1 (by decide)).trans
     (by decide),
   ((formatDuration_renders_hours_and_minutes.1 45 (by decide)).2.2.1 (by decide)).trans
     (by decide),
   formatDuration_renders_hours_and_minutes.2.2 630 (10 * 60 + 30) (by decide) (by decide)
     (by decide)⟩


/-! ## Claims on the effects of the month loop -/

theorem monthIteration_events (cfg : AppConfig) (rt : Runtime) (fetch : Fetch)
    (origin : String) (st : List Flight × World) (j : Nat) :
    (monthIteration cfg rt fetch origin st j).2.events =
      st.2.events ++ iterationEvents origin j (fetch st.2.attempts origin j) := by
  unfold monthIteration iterationEvents
  cases hres : fetch st.2.attempts origin j with
  | requestError => simp [hres]
  | networkError => simp [hres, successfulData]
  | response code body =>
    cases body with
    | none => by_cases hc : code = 200 <;> simp [hres, successfulData, hc]
    | some resp =>
      by_cases hc : code = 200
      · cases hs : resp.Success <;> simp [hres, successfulData, hc, hs]
      · simp [hres, successfulData, hc]

theorem monthLoop_events (cfg : AppConfig) (rt : Runtime) (fetch : Fetch) (origin : String)
    (w : World) (n : Nat) :
    ((List.range n).foldl (monthIteration cfg rt fetch origin) ([], w)).2.events =
      w.events ++ (List.range n).flatMap (fun j =>
        iterationEvents origin j (fetch (w.attempts + j) origin j)) := by
  induction n with
  | zero => simp
  | succ n ih =>
    rw [List.range_succ, List.foldl_append, List.flatMap_append]
    simp only [List.foldl_cons, List.foldl_nil]
    rw [monthIteration_events, ih, (monthLoop_closed cfg rt fetch origin w n).2]
    simp

/-- C21: the sleep does not follow every fetch. The events of one origin's loop
are, month by month, the request followed by the sleep when the fetch
succeeded, the request alone when it failed after being sent, and nothing when
the request could not be built. With the first month answered by status 429
the trace is request, request, sleep: the second request follows the first
with no sleep between them. When every fetch succeeds, each request is
followed by a sleep. -/
theorem failed_fetch_skips_the_sleep :
    (∀ (cfg : AppConfig) (rt : Runtime) (fetch : Fetch) (origin : String) (w : World),
      (searchFlightsForOrigin cfg rt fetch origin w).2.events =
        w.events ++ (List.range cfg.MonthsToSearch.toNat).flatMap (fun j =>
          iterationEvents origin j (fetch (w.attempts + j) origin j))) ∧
    (searchFlightsForOrigin exampleConfig exampleRuntime throttledFetch "OVB" World.start).2.events =
      [Event.request "OVB" 0, Event.request "OVB" 1, Event.sleep] ∧
    sleepBetweenRequests
      (searchFlightsForOrigin exampleConfig exampleRuntime throttledFetch "OVB"
        World.start).2.events = false ∧
    (∀ (cfg : AppConfig) (rt : Runtime) (fetch : Fetch) (origin : String) (w : World),
      (∀ k j, (successfulData (fetch k origin j)).isSome = true) →
      (searchFlightsForOrigin cfg rt fetch origin w).2.events =
        w.events ++ (List.range cfg.MonthsToSearch.toNat).flatMap (fun j =>
          [Event.request origin j, Event.sleep])) := by
  refine ⟨fun cfg rt fetch origin w => monthLoop_events cfg rt fetch origin w _,
    by decide, by decide, fun cfg rt fetch origin w hall => ?_⟩
  unfold searchFlightsForOrigin
  rw [monthLoop_events]
  congr 1
  apply List.flatMap_congr
  intro j _
  have h := hall (w.attempts + j) j
  unfold iterationEvents
  cases hres : fetch (w.attempts + j) origin j with
  | requestError => simp [hres, successfulData] at h
  | networkError => simp [hres, successfulData] at h
  | response code body => simp [← hres, h]

/-- Witness for C21: on the example upstream, where every fetch succeeds, the
two months of the OVB loop give request, sleep, request, sleep. -/
theorem failed_fetch_skips_the_sleep_witness :
    (searchFlightsForOrigin exampleConfig exampleRuntime exampleFetch "OVB" World.start).2.events =
      World.start.events ++ (List.range exampleConfig.MonthsToSearch.toNat).flatMap (fun j =>
        [Event.request "OVB" j, Event.sleep]) ∧
    sleepBetweenRequests
      (searchFlightsForOrigin exampleConfig exampleRuntime exampleFetch "OVB"
        World.start).2.events = true :=
  ⟨failed_fetch_skips_the_sleep.2.2.2 exampleConfig exampleRuntime exampleFetch "OVB" World.start
     (fun k j => by
       unfold exampleFetch okResponse
       by_cases h : j = 0 <;> simp [h, successfulData]),
   by decide⟩


/-! ## Claims on the standalone tracker -/

theorem Standalone_renderedFlights_eq (rt : Runtime) (g : List Flight) :
    Standalone.renderedFlights rt g = (rt.sortSlice (fun f => f.Duration) g).take 10 := by
  unfold Standalone.renderedFlights
  simp only [min_ten_toNat]
  by_cases h : 10 ≤ (rt.sortSlice (fun f => f.Duration) g).length
  · have h1 : Nat.min 10 (rt.sortSlice (fun f => f.Duration) g).length = 10 := by
      simp only [Nat.min_def]; split <;> omega
    rw [h1]
  · have h1 : Nat.min 10 (rt.sortSlice (fun f => f.Duration) g).length =
        (rt.sortSlice (fun f => f.Duration) g).length := by
      simp only [Nat.min_def]; split <;> omega
    rw [h1, List.take_of_length_le (le_refl _), List.take_of_length_le (by omega)]

theorem sort_by_duration_of_pair (rt : Runtime) (hrt : rt.Lawful) :
    rt.sortSlice (fun f => f.Duration) [slowCheapFlight, fastDearFlight] =
      [fastDearFlight, slowCheapFlight] := by
  have hperm := hrt.sort_perm (fun f => f.Duration) [slowCheapFlight, fastDearFlight]
  have hsorted := hrt.sort_sorted (fun f => f.Duration) [slowCheapFlight, fastDearFlight]
  have hlen := hperm.length_eq
  match hs : rt.sortSlice (fun f => f.Duration) [slowCheapFlight, fastDearFlight] with
  | [] => rw [hs] at hlen; simp at hlen
  | [_] => rw [hs] at hlen; simp at hlen
  | _ :: _ :: _ :: _ => rw [hs] at hlen; simp at hlen
  | [x, y] =>
    rw [hs] at hperm hsorted
    have hx : x ∈ [slowCheapFlight, fastDearFlight] := hperm.subset (by simp)
    have hy : y ∈ [slowCheapFlight, fastDearFlight] := hperm.subset (by simp)
    have hnd : [x, y].Nodup := hperm.nodup_iff.mpr (by decide)
    have hxy : x ≠ y := by
      intro h
      simp [h] at hnd
    have hle : x.Duration ≤ y.Duration := by
      simpa using hsorted
    simp only [List.mem_cons, List.mem_singleton, List.not_mem_nil, or_false] at hx hy
    rcases hx with rfl | rfl <;> rcases hy with rfl | rfl
    · exact absurd rfl hxy
    · exact absurd hle (by decide)
    · rfl
    · exact absurd rfl hxy

/-- C22: `formatMessage` of `src/main.go` sorts each group by `Duration`, not
by `Price`. For every list of Flights and every origin the rendered Flights
are in non-decreasing order of `Duration`; and for the group of a fare at
20000 taking 600 minutes and a fare at 30000 taking 300 minutes the rows are
the fare at 30000 followed by the fare at 20000, under every `sort.Slice` that
keeps its contract, so the rows are not in non-decreasing order of `Price`. -/
theorem standalone_rows_are_sorted_by_duration (cfg : AppConfig) (rt : Runtime)
    (hrt : rt.Lawful) :
    (∀ (origin : String) (g : List Flight),
      Standalone.formatGroup cfg rt origin g =
        Standalone.formatGroupHeader cfg origin ++
          String.join ((Standalone.renderedFlights rt g).map formatRow) ++ "\n") ∧
    (∀ g : List Flight,
      (Standalone.renderedFlights rt g).Pairwise (fun a b => a.Duration ≤ b.Duration)) ∧
    (mapLookup (flightsByOrigin [slowCheapFlight, fastDearFlight]) "OVB").getD [] =
      [slowCheapFlight, fastDearFlight] ∧
    Standalone.renderedFlights rt [slowCheapFlight, fastDearFlight] =
      [fastDearFlight, slowCheapFlight] ∧
    (Standalone.renderedFlights rt [slowCheapFlight, fastDearFlight]).map (fun f => f.Price) =
      [30000, 20000] ∧
    ¬ (Standalone.renderedFlights rt [slowCheapFlight, fastDearFlight]).Pairwise
      (fun a b => a.Price ≤ b.Price) := by
  have hrows : Standalone.renderedFlights rt [slowCheapFlight, fastDearFlight] =
      [fastDearFlight, slowCheapFlight] := by
    rw [Standalone_renderedFlights_eq, sort_by_duration_of_pair rt hrt]
    rfl
  refine ⟨fun origin g => ?_, fun g => ?_, by decide, hrows, ?_, ?_⟩
  · unfold Standalone.formatGroup
    rw [foldl_append_eq_join]
  · rw [Standalone_renderedFlights_eq]
    exact (hrt.sort_sorted (fun f => f.Duration) g).sublist (List.take_sublist _ _)
  · rw [hrows]
    rfl
  · rw [hrows]
    decide

/-- Witness for C22: with the insertion sort of the example runtime the two
fares are rendered with the prices 30000, 20000. -/
theorem standalone_rows_are_sorted_by_duration_witness :
    (Standalone.renderedFlights exampleRuntime [slowCheapFlight, fastDearFlight]).map
      (fun f => (f.Price, f.Duration)) = [(30000, 300), (20000, 600)] ∧
    ¬ (Standalone.renderedFlights exampleRuntime [slowCheapFlight, fastDearFlight]).Pairwise
      (fun a b => a.Price ≤ b.Price) :=
  ⟨by decide,
   (standalone_rows_are_sorted_by_duration exampleConfig exampleRuntime
     exampleRuntime_lawful).2.2.2.2.2⟩


/-! ## Claims on access control -/

theorem appendAdminIDs_eq (ids : List String) :
    ∀ adminUsers, appendAdminIDs adminUsers ids =
      adminUsers ++ ids.filterMap (fun idStr =>
        if (strconvParseInt (stringsTrimSpace idStr)).2 = false then
          some (strconvParseInt (stringsTrimSpace idStr)).1
        else none) := by
  induction ids with
  | nil => intro adminUsers; simp [appendAdminIDs]
  | cons idStr rest ih =>
    intro adminUsers
    unfold appendAdminIDs
    by_cases h : (strconvParseInt (stringsTrimSpace idStr)).2 = false
    · simp [h, ih]
    · simp [h, ih]

theorem mem_loadAdminUsers (env : String) (henv : env ≠ "") (id : Int) :
    id ∈ loadAdminUsers env ↔
      ∃ e ∈ stringsSplit env ',', strconvParseInt (stringsTrimSpace e) = (id, false) := by
  unfold loadAdminUsers getEnv
  simp only [henv, ne_eq, not_false_eq_true, if_true, appendAdminIDs_eq, List.nil_append,
    List.mem_filterMap]
  constructor
  · rintro ⟨e, he, hid⟩
    refine ⟨e, he, ?_⟩
    by_cases h : (strconvParseInt (stringsTrimSpace e)).2 = false
    · simp only [h, if_true, Option.some.injEq] at hid
      exact Prod.ext hid h
    · simp [h] at hid
  · rintro ⟨e, he, hid⟩
    exact ⟨e, he, by simp [hid]⟩

theorem isUserAllowed_iff (cfg : AppConfig) (u : Int) :
    isUserAllowed cfg u = true ↔ cfg.AdminUsers = [] ∨ u ∈ cfg.AdminUsers := by
  unfold isUserAllowed
  by_cases h : cfg.AdminUsers = []
  · simp [h]
  · have hlen : ¬ cfg.AdminUsers.length = 0 := fun hl => h (List.length_eq_zero.mp hl)
    simp only [hlen, if_false, h, false_or, List.any_eq_true, decide_eq_true_eq]
    constructor
    · rintro ⟨x, hx, rfl⟩
      exact hx
    · intro hu
      exact ⟨u, hu, rfl⟩

/-- C23 as stated fails: the value "abc" of `ADMIN_USER_IDS` is not empty and
has the single entry "abc", no entry parses, `AdminUsers` is empty, and
`isUserAllowed` admits the user 42. -/
theorem unparsable_allow_list_admits_everyone :
    "abc" ≠ "" ∧ stringsSplit "abc" ',' = ["abc"] ∧ loadAdminUsers "abc" = [] ∧
    isUserAllowed { exampleConfig with AdminUsers := loadAdminUsers "abc" } 42 = true := by
  decide

/-- C23 amended: with `AdminUsers` built from `ADMIN_USER_IDS` as `loadConfig`
does, the IDs kept are the values of the comma-separated entries that, trimmed,
parse as int64. When at least one entry is kept, `isUserAllowed(u)` is true
exactly for the kept IDs and false for every other user; when none is kept
(no entry parses, or the value is empty), `isUserAllowed(u)` is true for every
user. -/
theorem allow_list_restricts_when_an_entry_parses (cfg : AppConfig) (env : String)
    (hcfg : cfg.AdminUsers = loadAdminUsers env) (u : Int) :
    (env ≠ "" → ∀ id, id ∈ loadAdminUsers env ↔
      ∃ e ∈ stringsSplit env ',', strconvParseInt (stringsTrimSpace e) = (id, false)) ∧
    (loadAdminUsers env ≠ [] → (isUserAllowed cfg u = true ↔ u ∈ loadAdminUsers env)) ∧
    (loadAdminUsers env = [] → isUserAllowed cfg u = true) := by
  refine ⟨fun henv id => mem_loadAdminUsers env henv id, fun hne => ?_, fun hnil => ?_⟩
  · rw [isUserAllowed_iff, hcfg]
    simp [hne]
  · rw [isUserAllowed_iff, hcfg]
    exact Or.inl hnil

/-- Witness for C23: with `ADMIN_USER_IDS` set to "123, 456" the users 123 and
456 are kept, 456 is allowed and 42 is not. -/
theorem allow_list_restricts_when_an_entry_parses_witness :
    loadAdminUsers "123, 456" = [123, 456] ∧
    (isUserAllowed { exampleConfig with AdminUsers := loadAdminUsers "123, 456" } 456 = true ↔
      (456 : Int) ∈ loadAdminUsers "123, 456") ∧
    isUserAllowed { exampleConfig with AdminUsers := loadAdminUsers "123, 456" } 42 = false :=
  ⟨by decide,
   (allow_list_restricts_when_an_entry_parses
     { exampleConfig with AdminUsers := loadAdminUsers "123, 456" } "123, 456" rfl 456).2.1
     (by decide),
   by
     have h := (allow_list_restricts_when_an_entry_parses
       { exampleConfig with AdminUsers := loadAdminUsers "123, 456" } "123, 456" rfl 42).2.1
       (by decide)
     cases hb : isUserAllowed { exampleConfig with AdminUsers := loadAdminUsers "123, 456" } 42
     · rfl
     · exact absurd (h.mp hb) (by decide)⟩


/-! ## Claims on the city list -/

end FlightTracker
